import Mathlib

/-!
Verification development for the plywood Druid/SQL query planner.

The expression algebra, the DruidExternal planner (query-shape selection,
split lowering, having push-down, time-boundary specialization, the nested
group-by re-split rewrite, segment-metadata introspection) and the
SQLExternal lowering are shallowly embedded below.  Collaborators whose
source is outside the planner files (the extraction-fn, expression, filter,
aggregation and having builders, and a few base-class helpers) are
abstracted as explicit environment parameters or modelled from the
specification, as indicated by doc comments.
-/

set_option maxHeartbeats 1000000

namespace Plywood

/-- The plywood value types (`PlyType`); `SET` carries its element type. -/
inductive PlyType where
  | NULL
  | BOOLEAN
  | NUMBER
  | TIME
  | STRING
  | NUMBER_RANGE
  | TIME_RANGE
  | DATASET
  | SET (elem : PlyType)
deriving DecidableEq, Repr

/-- `Set.unwrapSetType`: strips one `SET/` layer. -/
def unwrapSetType : PlyType → PlyType
  | .SET t => t
  | t => t

/-- Literal plywood values (the payload of a `LiteralExpression`). -/
inductive Lit where
  | null
  | bool (b : Bool)
  | num (x : Int)
  | str (s : String)
  | set (setType : PlyType) (elements : List Lit)
deriving Repr

def Lit.plyType : Lit → PlyType
  | .null => .NULL
  | .bool _ => .BOOLEAN
  | .num _ => .NUMBER
  | .str _ => .STRING
  | .set t _ => .SET t

/--
The expression tree.  Each constructor mirrors one plywood expression class
(`RefExpression`, `LiteralExpression`, `AndExpression`, `MatchExpression`,
`IsExpression`, `InExpression`, `GreaterThanExpression`,
`FallbackExpression`, `ThenExpression`, `CardinalityExpression`,
`TimeBucketExpression`, `TimeFloorExpression`, `TimePartExpression`,
`NumberBucketExpression`, `CountExpression`, `SumExpression`,
`MinExpression`, `MaxExpression`, `CountDistinctExpression`,
`CustomAggregateExpression`, `ApplyExpression`, `SplitExpression`,
`FilterExpression`).  `withOpts` carries the out-of-band option bag
(`setOption`, e.g. `forceFinalize`), attached to the node it wraps.
-/
inductive Expr where
  | ref (name : String) (refType : Option PlyType)
  | literal (value : Lit)
  | and_ (operand expression : Expr)
  | match_ (operand : Expr) (regexp : String)
  | is_ (operand expression : Expr)
  | in_ (operand expression : Expr)
  | greaterThan (operand expression : Expr)
  | fallback (operand expression : Expr)
  | then_ (operand expression : Expr)
  | cardinality (operand : Expr)
  | timeBucket (operand : Expr) (duration timezone : String)
  | timeFloor (operand : Expr) (duration timezone : String)
  | timePart (operand : Expr) (part timezone : String)
  | numberBucket (operand : Expr) (size offset : Int)
  | count (operand : Expr)
  | sum (operand expression : Expr)
  | min_ (operand expression : Expr)
  | max_ (operand expression : Expr)
  | countDistinct (operand expression : Expr)
  | customAggregate (operand : Expr) (custom : String)
  | apply (operand : Expr) (name : String) (expression : Expr)
  | split (operand : Expr) (splits : List (String × Expr))
  | filter (operand expression : Expr)
  | withOpts (opts : List (String × Bool)) (operand : Expr)
deriving Repr

mutual

/-- `Lit` structural equality (plywood literal `.equals`). -/
def Lit.beq : Lit → Lit → Bool
  | .null, .null => true
  | .bool b, .bool b2 => b == b2
  | .num x, .num x2 => x == x2
  | .str s, .str s2 => s == s2
  | .set t es, .set t2 es2 => t == t2 && beqLitList es es2
  | _, _ => false

def beqLitList : List Lit → List Lit → Bool
  | [], [] => true
  | x :: r, y :: r2 => Lit.beq x y && beqLitList r r2
  | _, _ => false

end

mutual

/-- `Expression.equals`: structural equality of expression trees. -/
def Expr.beq : Expr → Expr → Bool
  | .ref n t, .ref n2 t2 => n == n2 && t == t2
  | .literal v, .literal v2 => Lit.beq v v2
  | .and_ a b, .and_ a2 b2 => Expr.beq a a2 && Expr.beq b b2
  | .match_ a r, .match_ a2 r2 => Expr.beq a a2 && r == r2
  | .is_ a b, .is_ a2 b2 => Expr.beq a a2 && Expr.beq b b2
  | .in_ a b, .in_ a2 b2 => Expr.beq a a2 && Expr.beq b b2
  | .greaterThan a b, .greaterThan a2 b2 => Expr.beq a a2 && Expr.beq b b2
  | .fallback a b, .fallback a2 b2 => Expr.beq a a2 && Expr.beq b b2
  | .then_ a b, .then_ a2 b2 => Expr.beq a a2 && Expr.beq b b2
  | .cardinality a, .cardinality a2 => Expr.beq a a2
  | .timeBucket a d z, .timeBucket a2 d2 z2 => Expr.beq a a2 && d == d2 && z == z2
  | .timeFloor a d z, .timeFloor a2 d2 z2 => Expr.beq a a2 && d == d2 && z == z2
  | .timePart a p z, .timePart a2 p2 z2 => Expr.beq a a2 && p == p2 && z == z2
  | .numberBucket a s o, .numberBucket a2 s2 o2 => Expr.beq a a2 && s == s2 && o == o2
  | .count a, .count a2 => Expr.beq a a2
  | .sum a b, .sum a2 b2 => Expr.beq a a2 && Expr.beq b b2
  | .min_ a b, .min_ a2 b2 => Expr.beq a a2 && Expr.beq b b2
  | .max_ a b, .max_ a2 b2 => Expr.beq a a2 && Expr.beq b b2
  | .countDistinct a b, .countDistinct a2 b2 => Expr.beq a a2 && Expr.beq b b2
  | .customAggregate a cu, .customAggregate a2 cu2 => Expr.beq a a2 && cu == cu2
  | .apply a n b, .apply a2 n2 b2 => Expr.beq a a2 && n == n2 && Expr.beq b b2
  | .split a ss, .split a2 ss2 => Expr.beq a a2 && beqSplitPairs ss ss2
  | .filter a b, .filter a2 b2 => Expr.beq a a2 && Expr.beq b b2
  | .withOpts o a, .withOpts o2 a2 => o == o2 && Expr.beq a a2
  | _, _ => false

def beqSplitPairs : List (String × Expr) → List (String × Expr) → Bool
  | [], [] => true
  | (n, x) :: r, (n2, y) :: r2 => n == n2 && Expr.beq x y && beqSplitPairs r r2
  | _, _ => false

end

/-- `Expression.TRUE`. -/
def Expr.TRUE : Expr := .literal (.bool true)

/-- `Expression._` (the nest-0 untyped reference named `_`). -/
def Expr.underscore : Expr := .ref "_" none

/-- The `op` tag of an expression (plywood `Expression.op`). -/
def Expr.opName : Expr → String
  | .ref .. => "ref"
  | .literal _ => "literal"
  | .and_ .. => "and"
  | .match_ .. => "match"
  | .is_ .. => "is"
  | .in_ .. => "in"
  | .greaterThan .. => "greaterThan"
  | .fallback .. => "fallback"
  | .then_ .. => "then"
  | .cardinality _ => "cardinality"
  | .timeBucket .. => "timeBucket"
  | .timeFloor .. => "timeFloor"
  | .timePart .. => "timePart"
  | .numberBucket .. => "numberBucket"
  | .count _ => "count"
  | .sum .. => "sum"
  | .min_ .. => "min"
  | .max_ .. => "max"
  | .countDistinct .. => "countDistinct"
  | .customAggregate .. => "customAggregate"
  | .apply .. => "apply"
  | .split .. => "split"
  | .filter .. => "filter"
  | .withOpts _ e => e.opName

/-- `Expression.isOp`. -/
def Expr.isOp (e : Expr) (o : String) : Bool := e.opName == o

/-- The computed `type` of an expression node (as fixed at construction). -/
def Expr.typeOf : Expr → Option PlyType
  | .ref _ t => t
  | .literal v => some v.plyType
  | .and_ .. => some .BOOLEAN
  | .match_ .. => some .BOOLEAN
  | .is_ .. => some .BOOLEAN
  | .in_ .. => some .BOOLEAN
  | .greaterThan .. => some .BOOLEAN
  | .fallback op _ => op.typeOf
  | .then_ _ ex => ex.typeOf
  | .cardinality _ => some .NUMBER
  | .timeBucket .. => some .TIME_RANGE
  | .timeFloor .. => some .TIME
  | .timePart .. => some .NUMBER
  | .numberBucket .. => some .NUMBER_RANGE
  | .count _ => some .NUMBER
  | .sum .. => some .NUMBER
  | .min_ _ ex => ex.typeOf.map unwrapSetType
  | .max_ _ ex => ex.typeOf.map unwrapSetType
  | .countDistinct .. => some .NUMBER
  | .customAggregate .. => some .NUMBER
  | .apply .. => some .DATASET
  | .split .. => some .DATASET
  | .filter .. => some .DATASET
  | .withOpts _ e => e.typeOf

/-- The `Aggregate` mixin predicate (`isAggregate()`). -/
def Expr.isAggregate : Expr → Bool
  | .count _ => true
  | .sum .. => true
  | .min_ .. => true
  | .max_ .. => true
  | .countDistinct .. => true
  | .customAggregate .. => true
  | .withOpts _ e => e.isAggregate
  | _ => false

/-- The `operand` of a chainable expression, if any. -/
def Expr.operand? : Expr → Option Expr
  | .ref .. => none
  | .literal _ => none
  | .and_ a _ => some a
  | .match_ a _ => some a
  | .is_ a _ => some a
  | .in_ a _ => some a
  | .greaterThan a _ => some a
  | .fallback a _ => some a
  | .then_ a _ => some a
  | .cardinality a => some a
  | .timeBucket a _ _ => some a
  | .timeFloor a _ _ => some a
  | .timePart a _ _ => some a
  | .numberBucket a _ _ => some a
  | .count a => some a
  | .sum a _ => some a
  | .min_ a _ => some a
  | .max_ a _ => some a
  | .countDistinct a _ => some a
  | .customAggregate a _ => some a
  | .apply a _ _ => some a
  | .split a _ => some a
  | .filter a _ => some a
  | .withOpts _ e => e.operand?

/-- `ChainableExpression.changeOperand` (identity on non-chainable nodes). -/
def Expr.changeOperand : Expr → Expr → Expr
  | .ref n t, _ => .ref n t
  | .literal v, _ => .literal v
  | .and_ _ b, newOperand => .and_ newOperand b
  | .match_ _ r, newOperand => .match_ newOperand r
  | .is_ _ b, newOperand => .is_ newOperand b
  | .in_ _ b, newOperand => .in_ newOperand b
  | .greaterThan _ b, newOperand => .greaterThan newOperand b
  | .fallback _ b, newOperand => .fallback newOperand b
  | .then_ _ b, newOperand => .then_ newOperand b
  | .cardinality _, newOperand => .cardinality newOperand
  | .timeBucket _ d z, newOperand => .timeBucket newOperand d z
  | .timeFloor _ d z, newOperand => .timeFloor newOperand d z
  | .timePart _ p z, newOperand => .timePart newOperand p z
  | .numberBucket _ s o, newOperand => .numberBucket newOperand s o
  | .count _, newOperand => .count newOperand
  | .sum _ b, newOperand => .sum newOperand b
  | .min_ _ b, newOperand => .min_ newOperand b
  | .max_ _ b, newOperand => .max_ newOperand b
  | .countDistinct _ b, newOperand => .countDistinct newOperand b
  | .customAggregate _ c, newOperand => .customAggregate newOperand c
  | .apply _ n b, newOperand => .apply newOperand n b
  | .split _ ss, newOperand => .split newOperand ss
  | .filter _ b, newOperand => .filter newOperand b
  | .withOpts o e, newOperand => .withOpts o (e.changeOperand newOperand)

/-- `ChainableUnaryExpression.changeExpression` (identity elsewhere). -/
def Expr.changeExpression : Expr → Expr → Expr
  | .and_ a _, newExpression => .and_ a newExpression
  | .is_ a _, newExpression => .is_ a newExpression
  | .in_ a _, newExpression => .in_ a newExpression
  | .greaterThan a _, newExpression => .greaterThan a newExpression
  | .fallback a _, newExpression => .fallback a newExpression
  | .then_ a _, newExpression => .then_ a newExpression
  | .sum a _, newExpression => .sum a newExpression
  | .min_ a _, newExpression => .min_ a newExpression
  | .max_ a _, newExpression => .max_ a newExpression
  | .countDistinct a _, newExpression => .countDistinct a newExpression
  | .apply a n _, newExpression => .apply a n newExpression
  | .filter a _, newExpression => .filter a newExpression
  | .withOpts o e, newExpression => .withOpts o (e.changeExpression newExpression)
  | e, _ => e

/-- `Expression.setOption`: attaches one option-bag entry to a node. -/
def Expr.setOption (name : String) (value : Bool) : Expr → Expr
  | .withOpts o e => .withOpts ((name, value) :: o) e
  | e => .withOpts [(name, value)] e

/-- The direct sub-expressions of a node, in traversal order. -/
def Expr.children : Expr → List Expr
  | .ref .. => []
  | .literal _ => []
  | .and_ a b => [a, b]
  | .match_ a _ => [a]
  | .is_ a b => [a, b]
  | .in_ a b => [a, b]
  | .greaterThan a b => [a, b]
  | .fallback a b => [a, b]
  | .then_ a b => [a, b]
  | .cardinality a => [a]
  | .timeBucket a _ _ => [a]
  | .timeFloor a _ _ => [a]
  | .timePart a _ _ => [a]
  | .numberBucket a _ _ => [a]
  | .count a => [a]
  | .sum a b => [a, b]
  | .min_ a b => [a, b]
  | .max_ a b => [a, b]
  | .countDistinct a b => [a, b]
  | .customAggregate a _ => [a]
  | .apply a _ b => [a, b]
  | .split a ss => a :: ss.map Prod.snd
  | .filter a b => [a, b]
  | .withOpts _ e => [e]

theorem sizeOf_mem_children {c e : Expr} (h : c ∈ e.children) : sizeOf c < sizeOf e := by
  cases e <;> simp [Expr.children] at h
  case split a ss =>
    rcases h with rfl | ⟨nm, hp⟩
    · simp
      omega
    · have h1 : sizeOf (nm, c) < sizeOf ss := List.sizeOf_lt_of_mem hp
      simp at h1
      simp
      omega
  all_goals first
    | (subst h; simp; omega)
    | (rcases h with rfl | rfl <;> simp <;> omega)

mutual

/-- The node count of an expression (computable termination measure). -/
def Expr.esize : Expr → Nat
  | .ref .. => 1
  | .literal _ => 1
  | .and_ a b => 1 + a.esize + b.esize
  | .match_ a _ => 1 + a.esize
  | .is_ a b => 1 + a.esize + b.esize
  | .in_ a b => 1 + a.esize + b.esize
  | .greaterThan a b => 1 + a.esize + b.esize
  | .fallback a b => 1 + a.esize + b.esize
  | .then_ a b => 1 + a.esize + b.esize
  | .cardinality a => 1 + a.esize
  | .timeBucket a _ _ => 1 + a.esize
  | .timeFloor a _ _ => 1 + a.esize
  | .timePart a _ _ => 1 + a.esize
  | .numberBucket a _ _ => 1 + a.esize
  | .count a => 1 + a.esize
  | .sum a b => 1 + a.esize + b.esize
  | .min_ a b => 1 + a.esize + b.esize
  | .max_ a b => 1 + a.esize + b.esize
  | .countDistinct a b => 1 + a.esize + b.esize
  | .customAggregate a _ => 1 + a.esize
  | .apply a _ b => 1 + a.esize + b.esize
  | .split a ss => 1 + a.esize + esizePairs ss
  | .filter a b => 1 + a.esize + b.esize
  | .withOpts _ a => 1 + a.esize

def esizePairs : List (String × Expr) → Nat
  | [] => 0
  | (_, x) :: r => 1 + x.esize + esizePairs r

end

/-- The total node count of a list of expressions. -/
def esizeList : List Expr → Nat
  | [] => 0
  | x :: r => x.esize + esizeList r

theorem esize_pos (e : Expr) : 0 < e.esize := by
  cases e <;> simp [Expr.esize]

theorem esizeList_map_snd_le (ss : List (String × Expr)) :
    esizeList (ss.map Prod.snd) ≤ esizePairs ss := by
  induction ss with
  | nil => simp [esizeList, esizePairs]
  | cons p r ih =>
    obtain ⟨n, x⟩ := p
    simp [esizeList, esizePairs]
    omega

theorem esizeList_children_lt (e : Expr) : esizeList e.children < e.esize := by
  cases e <;> simp [Expr.children, esizeList, Expr.esize] <;> try omega
  case split a ss =>
    have h1 := esizeList_map_snd_le ss
    have h2 : esizeList (a :: ss.map Prod.snd) = a.esize + esizeList (ss.map Prod.snd) := rfl
    omega

mutual

/--
`expression.some(fn)` for a pure node predicate: does any node of the tree
satisfy `p`?  (The pruning of the original traversal does not change the
answer for a pure predicate.)
-/
def Expr.anyNode (p : Expr → Bool) : Expr → Bool
  | .ref n t => p (.ref n t)
  | .literal v => p (.literal v)
  | .and_ a b => p (.and_ a b) || a.anyNode p || b.anyNode p
  | .match_ a r => p (.match_ a r) || a.anyNode p
  | .is_ a b => p (.is_ a b) || a.anyNode p || b.anyNode p
  | .in_ a b => p (.in_ a b) || a.anyNode p || b.anyNode p
  | .greaterThan a b => p (.greaterThan a b) || a.anyNode p || b.anyNode p
  | .fallback a b => p (.fallback a b) || a.anyNode p || b.anyNode p
  | .then_ a b => p (.then_ a b) || a.anyNode p || b.anyNode p
  | .cardinality a => p (.cardinality a) || a.anyNode p
  | .timeBucket a d z => p (.timeBucket a d z) || a.anyNode p
  | .timeFloor a d z => p (.timeFloor a d z) || a.anyNode p
  | .timePart a pt z => p (.timePart a pt z) || a.anyNode p
  | .numberBucket a s o => p (.numberBucket a s o) || a.anyNode p
  | .count a => p (.count a) || a.anyNode p
  | .sum a b => p (.sum a b) || a.anyNode p || b.anyNode p
  | .min_ a b => p (.min_ a b) || a.anyNode p || b.anyNode p
  | .max_ a b => p (.max_ a b) || a.anyNode p || b.anyNode p
  | .countDistinct a b => p (.countDistinct a b) || a.anyNode p || b.anyNode p
  | .customAggregate a cu => p (.customAggregate a cu) || a.anyNode p
  | .apply a n b => p (.apply a n b) || a.anyNode p || b.anyNode p
  | .split a ss => p (.split a ss) || a.anyNode p || anyNodePairs p ss
  | .filter a b => p (.filter a b) || a.anyNode p || b.anyNode p
  | .withOpts o a => p (.withOpts o a) || a.anyNode p

def anyNodePairs (p : Expr → Bool) : List (String × Expr) → Bool
  | [] => false
  | (_, x) :: r => x.anyNode p || anyNodePairs p r

end

/-- `expression.some(ex => ex.isOp("then") || null)`: does a `then` occur? -/
def Expr.containsThen (e : Expr) : Bool :=
  e.anyNode (fun ex => ex.isOp "then")

/-- `apply.expression.some(ex => ex instanceof SplitExpression ? true : null)`. -/
def Expr.containsSplit (e : Expr) : Bool :=
  e.anyNode (fun ex => ex.isOp "split")

/--
`isTimeRef` of `baseExternal`.  Modelled from the spec: `baseExternal` is
not under `src/`; the split-expression table of §4.1 treats the bare
reference to the time attribute as the time ref, so a time ref is a
`RefExpression` whose name is the timeAttribute.
-/
def isTimeRefName (timeAttribute : String) : Expr → Bool
  | .ref n _ => n == timeAttribute
  | _ => false

/-- `ex.expression.some(ex => this.isTimeRef(ex) || null)`: a time ref occurs. -/
def Expr.containsTimeRef (timeAttribute : String) (e : Expr) : Bool :=
  e.anyNode (isTimeRefName timeAttribute)

mutual

/--
The `topNCompatibleSort` inner check: `sortApply.expression.some(ex =>
ex instanceof FilterExpression ? ex.expression.some(isTimeRef) : null)`.
At a `filter` node the answer is settled by its filter expression alone
(the traversal does not descend further into that node).
-/
def Expr.containsFilterOnTimeRef (ta : String) : Expr → Bool
  | .filter _ fe => fe.containsTimeRef ta
  | .ref .. => false
  | .literal _ => false
  | .and_ a b => a.containsFilterOnTimeRef ta || b.containsFilterOnTimeRef ta
  | .match_ a _ => a.containsFilterOnTimeRef ta
  | .is_ a b => a.containsFilterOnTimeRef ta || b.containsFilterOnTimeRef ta
  | .in_ a b => a.containsFilterOnTimeRef ta || b.containsFilterOnTimeRef ta
  | .greaterThan a b => a.containsFilterOnTimeRef ta || b.containsFilterOnTimeRef ta
  | .fallback a b => a.containsFilterOnTimeRef ta || b.containsFilterOnTimeRef ta
  | .then_ a b => a.containsFilterOnTimeRef ta || b.containsFilterOnTimeRef ta
  | .cardinality a => a.containsFilterOnTimeRef ta
  | .timeBucket a _ _ => a.containsFilterOnTimeRef ta
  | .timeFloor a _ _ => a.containsFilterOnTimeRef ta
  | .timePart a _ _ => a.containsFilterOnTimeRef ta
  | .numberBucket a _ _ => a.containsFilterOnTimeRef ta
  | .count a => a.containsFilterOnTimeRef ta
  | .sum a b => a.containsFilterOnTimeRef ta || b.containsFilterOnTimeRef ta
  | .min_ a b => a.containsFilterOnTimeRef ta || b.containsFilterOnTimeRef ta
  | .max_ a b => a.containsFilterOnTimeRef ta || b.containsFilterOnTimeRef ta
  | .countDistinct a b => a.containsFilterOnTimeRef ta || b.containsFilterOnTimeRef ta
  | .customAggregate a _ => a.containsFilterOnTimeRef ta
  | .apply a _ b => a.containsFilterOnTimeRef ta || b.containsFilterOnTimeRef ta
  | .split a ss => a.containsFilterOnTimeRef ta || cfotrPairs ta ss
  | .withOpts _ a => a.containsFilterOnTimeRef ta

def cfotrPairs (ta : String) : List (String × Expr) → Bool
  | [] => false
  | (_, x) :: r => x.containsFilterOnTimeRef ta || cfotrPairs ta r

end

mutual

/-- `getFilterSubExpression`: the first `FilterExpression` in pre-order. -/
def Expr.findFilterSub : Expr → Option Expr
  | .filter a b => some (.filter a b)
  | .ref .. => none
  | .literal _ => none
  | .and_ a b => (a.findFilterSub).orElse (fun _ => b.findFilterSub)
  | .match_ a _ => a.findFilterSub
  | .is_ a b => (a.findFilterSub).orElse (fun _ => b.findFilterSub)
  | .in_ a b => (a.findFilterSub).orElse (fun _ => b.findFilterSub)
  | .greaterThan a b => (a.findFilterSub).orElse (fun _ => b.findFilterSub)
  | .fallback a b => (a.findFilterSub).orElse (fun _ => b.findFilterSub)
  | .then_ a b => (a.findFilterSub).orElse (fun _ => b.findFilterSub)
  | .cardinality a => a.findFilterSub
  | .timeBucket a _ _ => a.findFilterSub
  | .timeFloor a _ _ => a.findFilterSub
  | .timePart a _ _ => a.findFilterSub
  | .numberBucket a _ _ => a.findFilterSub
  | .count a => a.findFilterSub
  | .sum a b => (a.findFilterSub).orElse (fun _ => b.findFilterSub)
  | .min_ a b => (a.findFilterSub).orElse (fun _ => b.findFilterSub)
  | .max_ a b => (a.findFilterSub).orElse (fun _ => b.findFilterSub)
  | .countDistinct a b => (a.findFilterSub).orElse (fun _ => b.findFilterSub)
  | .customAggregate a _ => a.findFilterSub
  | .apply a _ b => (a.findFilterSub).orElse (fun _ => b.findFilterSub)
  | .split a ss => (a.findFilterSub).orElse (fun _ => ffsPairs ss)
  | .withOpts _ a => a.findFilterSub

def ffsPairs : List (String × Expr) → Option Expr
  | [] => none
  | (_, x) :: r => (x.findFilterSub).orElse (fun _ => ffsPairs r)

end

mutual

/-- All referenced names in the tree, in traversal order (with repeats). -/
def Expr.collectRefNames : Expr → List String
  | .ref n _ => [n]
  | .literal _ => []
  | .and_ a b => a.collectRefNames ++ b.collectRefNames
  | .match_ a _ => a.collectRefNames
  | .is_ a b => a.collectRefNames ++ b.collectRefNames
  | .in_ a b => a.collectRefNames ++ b.collectRefNames
  | .greaterThan a b => a.collectRefNames ++ b.collectRefNames
  | .fallback a b => a.collectRefNames ++ b.collectRefNames
  | .then_ a b => a.collectRefNames ++ b.collectRefNames
  | .cardinality a => a.collectRefNames
  | .timeBucket a _ _ => a.collectRefNames
  | .timeFloor a _ _ => a.collectRefNames
  | .timePart a _ _ => a.collectRefNames
  | .numberBucket a _ _ => a.collectRefNames
  | .count a => a.collectRefNames
  | .sum a b => a.collectRefNames ++ b.collectRefNames
  | .min_ a b => a.collectRefNames ++ b.collectRefNames
  | .max_ a b => a.collectRefNames ++ b.collectRefNames
  | .countDistinct a b => a.collectRefNames ++ b.collectRefNames
  | .customAggregate a _ => a.collectRefNames
  | .apply a _ b => a.collectRefNames ++ b.collectRefNames
  | .split a ss => a.collectRefNames ++ crnPairs ss
  | .filter a b => a.collectRefNames ++ b.collectRefNames
  | .withOpts _ a => a.collectRefNames

def crnPairs : List (String × Expr) → List String
  | [] => []
  | (_, x) :: r => x.collectRefNames ++ crnPairs r

end

/--
`getFreeReferences` restricted to the scalar expressions the planner feeds
it (all references at nest 0): the distinct referenced names.
-/
def Expr.freeRefs (e : Expr) : List String :=
  e.collectRefNames.eraseDups

mutual

/--
`Expression.substitute`: applies `f` top-down; a node for which `f` returns
a replacement is replaced and not descended into.
-/
def substituteE (f : Expr → Option Expr) : Expr → Expr
  | .ref n t =>
    match f (.ref n t) with
    | some r => r
    | none => .ref n t
  | .literal v =>
    match f (.literal v) with
    | some r => r
    | none => .literal v
  | .and_ a b =>
    match f (.and_ a b) with
    | some r => r
    | none => .and_ (substituteE f a) (substituteE f b)
  | .match_ a re =>
    match f (.match_ a re) with
    | some r => r
    | none => .match_ (substituteE f a) re
  | .is_ a b =>
    match f (.is_ a b) with
    | some r => r
    | none => .is_ (substituteE f a) (substituteE f b)
  | .in_ a b =>
    match f (.in_ a b) with
    | some r => r
    | none => .in_ (substituteE f a) (substituteE f b)
  | .greaterThan a b =>
    match f (.greaterThan a b) with
    | some r => r
    | none => .greaterThan (substituteE f a) (substituteE f b)
  | .fallback a b =>
    match f (.fallback a b) with
    | some r => r
    | none => .fallback (substituteE f a) (substituteE f b)
  | .then_ a b =>
    match f (.then_ a b) with
    | some r => r
    | none => .then_ (substituteE f a) (substituteE f b)
  | .cardinality a =>
    match f (.cardinality a) with
    | some r => r
    | none => .cardinality (substituteE f a)
  | .timeBucket a d z =>
    match f (.timeBucket a d z) with
    | some r => r
    | none => .timeBucket (substituteE f a) d z
  | .timeFloor a d z =>
    match f (.timeFloor a d z) with
    | some r => r
    | none => .timeFloor (substituteE f a) d z
  | .timePart a pt z =>
    match f (.timePart a pt z) with
    | some r => r
    | none => .timePart (substituteE f a) pt z
  | .numberBucket a s o =>
    match f (.numberBucket a s o) with
    | some r => r
    | none => .numberBucket (substituteE f a) s o
  | .count a =>
    match f (.count a) with
    | some r => r
    | none => .count (substituteE f a)
  | .sum a b =>
    match f (.sum a b) with
    | some r => r
    | none => .sum (substituteE f a) (substituteE f b)
  | .min_ a b =>
    match f (.min_ a b) with
    | some r => r
    | none => .min_ (substituteE f a) (substituteE f b)
  | .max_ a b =>
    match f (.max_ a b) with
    | some r => r
    | none => .max_ (substituteE f a) (substituteE f b)
  | .countDistinct a b =>
    match f (.countDistinct a b) with
    | some r => r
    | none => .countDistinct (substituteE f a) (substituteE f b)
  | .customAggregate a cu =>
    match f (.customAggregate a cu) with
    | some r => r
    | none => .customAggregate (substituteE f a) cu
  | .apply a n b =>
    match f (.apply a n b) with
    | some r => r
    | none => .apply (substituteE f a) n (substituteE f b)
  | .split a ss =>
    match f (.split a ss) with
    | some r => r
    | none => .split (substituteE f a) (substituteSplitsE f ss)
  | .filter a b =>
    match f (.filter a b) with
    | some r => r
    | none => .filter (substituteE f a) (substituteE f b)
  | .withOpts o a =>
    match f (.withOpts o a) with
    | some r => r
    | none => .withOpts o (substituteE f a)

def substituteSplitsE (f : Expr → Option Expr) : List (String × Expr) → List (String × Expr)
  | [] => []
  | (n, x) :: rest => (n, substituteE f x) :: substituteSplitsE f rest

end

/-! ### The data model of the External snapshot -/

/-- A start/end pair standing for a `PlywoodRange` with bounds `[]`. -/
structure RangeV where
  start : String
  stop : String
deriving DecidableEq, Repr

/-- `AttributeInfo`: one column of the data source. -/
structure AttributeInfo where
  name : String
  type : Option PlyType := none
  nativeType : Option String := none
  unsplitable : Bool := false
  maker : Option Expr := none
  cardinality : Option Nat := none
  range : Option RangeV := none
deriving Repr

/-- `AttributeInfo.changeRange`. -/
def AttributeInfo.changeRange (a : AttributeInfo) (r : RangeV) : AttributeInfo :=
  { a with range := some r }

/--
`AttributeInfo.dropOriginInfo`.  Modelled from the spec: the attribute-origin
bookkeeping is outside the planner files; dropping it leaves the attribute
itself unchanged in this model.
-/
def AttributeInfo.dropOriginInfo (a : AttributeInfo) : AttributeInfo := a

inductive SortDirection where
  | ascending
  | descending
deriving DecidableEq, Repr

def SortDirection.name : SortDirection → String
  | .ascending => "ascending"
  | .descending => "descending"

/-- `SortExpression` as carried by an External (`sort`). -/
structure SortE where
  expression : Expr
  direction : SortDirection
deriving Repr

/-- `SortExpression.refName()`: the referenced name when sorting on a ref. -/
def SortE.refName : SortE → Option String
  | s => match s.expression with
    | .ref n _ => some n
    | _ => none

/-- `ApplyExpression` as carried by an External (`applies`): name and aggregate. -/
structure ApplyE where
  name : String
  expression : Expr
deriving Repr

/-- The External `mode`. -/
inductive Mode where
  | raw
  | value
  | total
  | split
deriving DecidableEq, Repr

/-- `QuerySelection` of `baseExternal`. -/
inductive QuerySelection where
  | any
  | groupByOnly
deriving DecidableEq, Repr

/-- The `source` of an External: one table name or a union list. -/
inductive SourceT where
  | one (name : String)
  | many (names : List String)
deriving DecidableEq, Repr

/-- The split keys of an External (`SplitExpression.splits`, operand `_`). -/
abbrev SplitPairs := List (String × Expr)

/--
`ExternalValue`: the immutable configuration snapshot one planning pass
receives (shared by the Druid and SQL backends).
-/
structure ExternalV where
  engine : String := "druid"
  source : SourceT := .one "main"
  mode : Mode := .total
  timeAttribute : String := "__time"
  filter : Expr := Expr.TRUE
  havingFilter : Expr := Expr.TRUE
  split : Option SplitPairs := none
  applies : Option (List ApplyE) := none
  valueExpression : Option Expr := none
  sort : Option SortE := none
  limit : Option Nat := none
  select : Option (List String) := none
  rawAttributes : List AttributeInfo := []
  derivedAttributes : List (String × Expr) := []
  customAggregations : List String := []
  customTransforms : List String := []
  allowEternity : Bool := false
  allowSelectQueries : Bool := false
  exactResultsOnly : Bool := false
  querySelection : Option QuerySelection := none
  context : Option (List (String × String)) := none
  withQuery : Option String := none
deriving Repr

/-- `getQuerySelection()`: the querySelection, defaulting to `any`. -/
def ExternalV.getQuerySelection (e : ExternalV) : QuerySelection :=
  e.querySelection.getD .any

/--
`getAttributesInfo`.  Modelled from the spec: the lookup lives in
`baseExternal` (not under `src/`); §3 describes `AttributeInfo` as the
per-column record of the snapshot, so the lookup finds the raw attribute
by name.
-/
def ExternalV.getAttributesInfo (e : ExternalV) (name : String) : Option AttributeInfo :=
  e.rawAttributes.find? (fun a => a.name == name)

/--
`getQueryFilter`.  Modelled from the spec: `baseExternal` is not under
`src/`; the filter of the snapshot is the query filter (§4.8).
-/
def ExternalV.getQueryFilter (e : ExternalV) : Expr := e.filter

/--
`getQuerySplit`.  Modelled from the spec: `baseExternal` is not under
`src/`; the split of the snapshot is the query split (§4.2).
-/
def ExternalV.getQuerySplit (e : ExternalV) : Option SplitPairs := e.split

/--
`getSelectedAttributes`.  Modelled from the spec: `baseExternal` is not
under `src/`; the selected attributes are the raw attributes restricted to
the `select` list when one is present (§4.6).
-/
def ExternalV.getSelectedAttributes (e : ExternalV) : List AttributeInfo :=
  match e.select with
  | some names => names.filterMap (fun n => e.getAttributesInfo n)
  | none => e.rawAttributes

/-- `isTimeRef` of an External: a ref named like its time attribute. -/
def ExternalV.isTimeRef (e : ExternalV) (ex : Expr) : Bool :=
  isTimeRefName e.timeAttribute ex

/--
`sortOnLabel`.  Modelled from the spec: `baseExternal` is not under `src/`;
§4.5 distinguishes sorting on a split label from sorting on an aggregate
name, so the sort is on-label when its ref name is one of the split keys.
-/
def ExternalV.sortOnLabel (e : ExternalV) : Bool :=
  match e.sort with
  | some s =>
    match s.refName, e.split with
    | some n, some sp => sp.any (fun p => p.1 == n)
    | _, _ => false
  | none => false

/-- `toValueApply()`: the value expression packaged as the `__VALUE__` apply. -/
def ExternalV.toValueApply (e : ExternalV) : ApplyE :=
  { name := "__VALUE__", expression := e.valueExpression.getD Expr.underscore }

/-! ### The Druid query document model -/

/-- Row-value inflaters attached to the post-transform. -/
inductive Inflater where
  | timeI (label : String)
  | booleanI (label : String)
  | numberI (label : String)
  | setStringI (label : String)
  | setCardinalityI (label : String)
  | intelligent (tag : String) (label : String)
deriving DecidableEq, Repr

/-- `External.timeInflaterFactory`. -/
def timeInflaterFactory (label : String) : Inflater := .timeI label

/-- `External.setCardinalityInflaterFactory`. -/
def setCardinalityInflaterFactory (label : String) : Inflater := .setCardinalityI label

/-- A Druid granularity: `"all"`, `"none"` or a period spec. -/
inductive Granularity where
  | all
  | none_
  | period (period timeZone : String)
deriving DecidableEq, Repr

/-- An opaque lowered extraction function (built by `DruidExtractionFnBuilder`). -/
abbrev ExtractionFn := String

/-- An opaque lowered Druid filter (built by `DruidFilterBuilder`). -/
abbrev DruidFilter := String

/-- An opaque lowered aggregation (built by `DruidAggregationBuilder`). -/
abbrev Aggregation := String

/-- An opaque lowered post-aggregation (built by `DruidAggregationBuilder`). -/
abbrev PostAggregation := String

/-- An opaque lowered having filter (built by `DruidHavingFilterBuilder`). -/
abbrev HavingSpec := String

/-- A Druid dimension spec. -/
inductive DimensionSpec where
  | full (type_ : String) (dimension : String) (outputName : String)
         (extractionFn : Option ExtractionFn) (outputType : Option String)
  | regexFiltered (delegate : DimensionSpec) (pattern : String)
  | listFiltered (delegate : DimensionSpec) (values : List Lit)
deriving Repr

/-- The `outputName` of a dimension spec, when it has one directly. -/
def DimensionSpec.outputNameOf : DimensionSpec → Option String
  | .full _ _ o _ _ => some o
  | _ => none

/-- A Druid virtual column (`type: "expression"`). -/
structure VirtualColumn where
  name : String
  expression : String
  outputType : Option String
deriving DecidableEq, Repr

/-- A topN metric spec. -/
inductive TopNMetricSpec where
  | dimensionOrd (ordering : String)
  | field (name : String)
  | inverted (metric : TopNMetricSpec)
deriving DecidableEq, Repr

/-- One column of a groupBy `limitSpec` (full spec or bare output name). -/
inductive OrderByCol where
  | name (dimension : String)
  | full (dimension : String) (direction : String) (dimensionOrder : Option String)
deriving DecidableEq, Repr

/-- A groupBy `limitSpec` (`type: "default"`). -/
structure LimitSpec where
  columns : List OrderByCol
  limit : Option Nat := none
deriving DecidableEq, Repr

/-- All fields of a Druid query document except the data source. -/
structure QueryFields where
  queryType : String := "timeseries"
  intervals : Option String := none
  granularity : Granularity := .all
  filter : Option DruidFilter := none
  aggregations : List Aggregation := []
  postAggregations : List PostAggregation := []
  dimension : Option DimensionSpec := none
  dimensions : Option (List DimensionSpec) := none
  virtualColumns : Option (List VirtualColumn) := none
  bound : Option String := none
  descending : Bool := false
  context : Option (List (String × String)) := none
  metric : Option TopNMetricSpec := none
  threshold : Option Nat := none
  limitSpec : Option LimitSpec := none
  having : Option HavingSpec := none
  columns : Option (List String) := none
  resultFormat : Option String := none
  order : Option String := none
  limit : Option Nat := none
deriving Repr

mutual

/-- A Druid data source: a table, a union, or a nested query. -/
inductive DataSource where
  | table (name : String) : DataSource
  | union (names : List String) : DataSource
  | query (q : DruidQuery) : DataSource

/-- A Druid query document: its data source plus all other fields. -/
inductive DruidQuery where
  | mk (dataSource : DataSource) (fields : QueryFields) : DruidQuery

end

def DruidQuery.dataSource : DruidQuery → DataSource
  | .mk d _ => d

def DruidQuery.fields : DruidQuery → QueryFields
  | .mk _ f => f

def DruidQuery.queryType (q : DruidQuery) : String := q.fields.queryType

def DruidQuery.bound (q : DruidQuery) : Option String := q.fields.bound

def DruidQuery.setDataSource : DruidQuery → DataSource → DruidQuery
  | .mk _ f, d => .mk d f

def DruidQuery.mapFields : DruidQuery → (QueryFields → QueryFields) → DruidQuery
  | .mk d f, g => .mk d (g f)

/-- `delete innerQuery.context` before nesting the inner query. -/
def DruidQuery.stripContext (q : DruidQuery) : DruidQuery :=
  q.mapFields (fun f => { f with context := none })

/-- `getDruidDataSource()`. -/
def ExternalV.getDruidDataSource (e : ExternalV) : DataSource :=
  match e.source with
  | .one s => .table s
  | .many l => .union l

/-- The requester context returned next to a query. -/
structure RequesterContext where
  timestamp : Option String := none
  ignorePrefixStr : Option String := none
  dummyPrefixStr : Option String := none
deriving DecidableEq, Repr

/-- The post-transform pipeline, by construction site. -/
inductive PostT where
  | rows (inflaters : List Inflater) (attributes : List AttributeInfo)
         (keys : Option (List String)) (zeroTotalApplies : Option (List ApplyE))
  | valueT
  | timeBoundaryT (applies : Option (List ApplyE))
deriving Repr

/-- `QueryAndPostTransform` for the Druid backend. -/
structure QueryAndPostTransform where
  query : DruidQuery
  reqContext : RequesterContext
  postTransform : PostT

/--
The collaborators of the Druid planner whose source lies outside the
planner files: the extraction-fn, expression, filter, aggregation and
having builders, the intelligent-inflater factory, and the bucket-count
bound of a split expression.  Each is abstracted as a function.
-/
structure DruidEnv where
  extractionFn : Expr → Except String (Option ExtractionFn)
  druidExpression : Expr → Option String
  expressionTypeToOutputType : Option PlyType → Option String
  intelligentInflater : Expr → String → Option Inflater
  maxBucketNumber : SplitPairs → Nat
  filterToDruid : Expr → Except String (String × Option DruidFilter)
  makeAggregations : ExternalV → List ApplyE → Except String (List Aggregation × List PostAggregation)
  havingToFilter : ExternalV → Expr → Except String HavingSpec

/-! ### DruidExternal: static helpers -/

/-- `canHandleSort`: raw mode only accepts ascending sorts on the time attribute. -/
def ExternalV.canHandleSort (e : ExternalV) (sort : SortE) : Bool :=
  if e.mode == .raw then
    if sort.refName != some e.timeAttribute then false
    else sort.direction == .ascending
  else true

/-- `expressionNeedsNumericSort`. -/
def expressionNeedsNumericSort (ex : Expr) : Bool :=
  ex.typeOf == some .NUMBER || ex.typeOf == some .NUMBER_RANGE

/-- `DruidExternal.isTimestampCompatibleSort`. -/
def isTimestampCompatibleSort (sort : Option SortE) (label : String) : Bool :=
  match sort with
  | none => true
  | some s =>
    match s.expression with
    | .ref n _ => n == label
    | _ => false

/-- `name.indexOf("__") === 0`: the name starts with the given characters. -/
def strStartsWith (pre s : String) : Bool :=
  pre.data.isPrefixOf s.data

/-- `makeOutputName`: names starting with `__` get the `***` dummy prefix. -/
def makeOutputName (name : String) : String :=
  if strStartsWith "__" name then "***" ++ name else name

/-- `isMinMaxTimeExpression`: a `min` or `max` of the time ref. -/
def ExternalV.isMinMaxTimeExpression (e : ExternalV) : Expr → Bool
  | .min_ _ ex => e.isTimeRef ex
  | .max_ _ ex => e.isTimeRef ex
  | _ => false

/-- `topNCompatibleSort`: no filter over the time ref inside the sorted apply. -/
def ExternalV.topNCompatibleSort (e : ExternalV) : Bool :=
  match e.sort with
  | none => true
  | some sort =>
    match sort.expression with
    | .ref sortRefName _ =>
      match (e.applies.getD []).find? (fun a => a.name == sortRefName) with
      | some sortApply => !sortApply.expression.containsFilterOnTimeRef e.timeAttribute
      | none => true
    | _ => true

/-- `splitExpressionToGranularityInflater`: bare time ref or a time bucket over it. -/
def splitExpressionToGranularityInflater (env : DruidEnv) (e : ExternalV)
    (splitExpression : Expr) (label : String) : Option (Granularity × Option Inflater) :=
  if e.isTimeRef splitExpression then
    some (.none_, some (timeInflaterFactory label))
  else
    match splitExpression with
    | .timeBucket operand duration timezone =>
      if e.isTimeRef operand then
        some (.period duration timezone, env.intelligentInflater splitExpression label)
      else none
    | .timeFloor operand duration timezone =>
      if e.isTimeRef operand then
        some (.period duration timezone, env.intelligentInflater splitExpression label)
      else none
    | _ => none

/-- `ParsedResplitAgg`: the three parts of a recognized re-split aggregate. -/
structure ParsedResplitAgg where
  resplitAgg : Expr
  resplitApply : Expr
  resplitSplit : Expr

def Expr.isChainable (e : Expr) : Bool := e.operand?.isSome

/-- `Expr.getLiteralValue`. -/
def Expr.getLiteralValue : Expr → Option Lit
  | .literal v => some v
  | _ => none

/--
`DruidExternal.parseResplitAgg`: recognizes
`aggregate( apply( split( ref | filter-of-ref ) ) )`, rebasing all three
parts onto `_` and pushing an inner filter into the DATASET references of
the apply expression.
-/
def parseResplitAgg (applyExpression : Expr) : Option ParsedResplitAgg :=
  if !(applyExpression.isChainable && applyExpression.isAggregate) then none
  else
    match applyExpression.operand? with
    | some (.apply applyOperand applyName applyExpr) =>
      match applyOperand with
      | .split splitOperand splits =>
        let refAndApply : Expr × Expr :=
          match splitOperand with
          | .filter filterOperand filterExpression =>
            (filterOperand,
             Expr.apply Expr.underscore applyName
               (substituteE (fun ex =>
                  match ex with
                  | .ref n t =>
                    if t == some PlyType.DATASET then
                      some (.filter (.ref n t) filterExpression)
                    else none
                  | _ => none) applyExpr))
          | other => (other, Expr.apply Expr.underscore applyName applyExpr)
        match refAndApply.1 with
        | .ref .. =>
          some { resplitAgg := applyExpression.changeOperand Expr.underscore,
                 resplitApply := refAndApply.2,
                 resplitSplit := Expr.split Expr.underscore splits }
        | _ => none
      | _ => none
    | _ => none

/-! ### Split lowering -/

/-- The result of `expressionToDimensionInflater`. -/
structure DimensionInflater where
  virtualColumn : Option VirtualColumn := none
  dimension : DimensionSpec
  inflater : Option Inflater := none
deriving Repr

/-- The result of `expressionToDimensionInflaterHaving`. -/
structure DimensionInflaterHaving where
  virtualColumn : Option VirtualColumn := none
  dimension : DimensionSpec
  inflater : Option Inflater := none
  having : Expr
deriving Repr

/-- The `isComplexFallback` check inside `expressionToDimensionInflater`. -/
def isComplexFallback : Expr → Bool
  | .fallback op ex =>
    ex.isOp "ref" && op.isChainable &&
      (match op.operand? with
       | some inner => inner.isChainable
       | none => false)
  | _ => false

/--
`expressionToDimensionInflater`: lowers one split-key expression to a
dimension spec (plus optional virtual column and inflater).  The error
messages keep the fixed text of the source; the interpolated expression
rendering is omitted.
-/
def expressionToDimensionInflater (env : DruidEnv) (e : ExternalV)
    (expression : Expr) (label : String) : Except String DimensionInflater :=
  let freeReferences := expression.freeRefs
  if freeReferences.length == 0 then
    match env.extractionFn expression with
    | .error m => .error m
    | .ok fn =>
      .ok { dimension := .full "extraction" "__time" (makeOutputName label) fn none,
            inflater := none }
  else
    let makeExpression : Unit → Except String DimensionInflater := fun _ =>
      match env.druidExpression expression with
      | none => .error "could not convert expression to Druid expression"
      | some druidExpression =>
        let outputName := makeOutputName label
        let outputType := env.expressionTypeToOutputType expression.typeOf
        let inflater := env.intelligentInflater expression label
        if expression.isOp "ref" then
          .ok { dimension := .full "default" outputName outputName none outputType, inflater }
        else
          let dimensionSrcName := "v:" ++ outputName
          .ok { virtualColumn := some ⟨dimensionSrcName, druidExpression, outputType⟩,
                dimension := .full "default" dimensionSrcName outputName none outputType,
                inflater }
    if freeReferences.length > 1 || expression.containsThen || isComplexFallback expression then
      makeExpression ()
    else
      match freeReferences with
      | [] => .error "no free reference"
      | referenceName :: _ =>
        match e.getAttributesInfo referenceName with
        | none => .error ("unknown attribute " ++ referenceName)
        | some attributeInfo =>
          if attributeInfo.unsplitable then
            .error ("can not convert expression to split because it references an un-splitable metric "
              ++ referenceName ++ " which is most likely rolled up.")
          else
            match env.extractionFn expression with
            | .error _ => makeExpression ()
            | .ok extractionFn =>
              let simpleInflater := env.intelligentInflater expression label
              let dimName :=
                if attributeInfo.name == e.timeAttribute then "__time" else attributeInfo.name
              let dimType := if extractionFn.isSome then "extraction" else "default"
              let outputType : Option String :=
                if expression.typeOf == some PlyType.NUMBER then
                  some (if dimName == "__time" then "LONG" else "DOUBLE")
                else none
              let dimension : DimensionSpec :=
                .full dimType dimName (makeOutputName label) extractionFn outputType
              if expression.isOp "ref" || expression.isOp "timeBucket" ||
                 expression.isOp "timePart" || expression.isOp "numberBucket" then
                .ok { dimension, inflater := simpleInflater }
              else if expression.isOp "cardinality" then
                .ok { dimension, inflater := some (setCardinalityInflaterFactory label) }
              else
                let effectiveType := expression.typeOf.map unwrapSetType
                if simpleInflater.isSome || effectiveType == some PlyType.STRING ||
                   effectiveType == some PlyType.NULL then
                  .ok { dimension, inflater := simpleInflater }
                else
                  .error "could not convert expression to a Druid dimension"

/-- The conjuncts of a (nested) AND expression. -/
def andConjuncts : Expr → List Expr
  | .and_ a b => andConjuncts a ++ andConjuncts b
  | e => [e]

/-- Re-joins conjuncts with AND; the empty conjunction is `TRUE`. -/
def andJoin : List Expr → Expr
  | [] => Expr.TRUE
  | x :: rest => rest.foldl Expr.and_ x

/--
`Expression.extractFromAnd`.  Modelled from the spec: `baseExpression` is
not under `src/`; §4.2 describes the having push-down as splitting the
filter "via AND-extraction into the part directly constraining the
dimension label ... and the residue", so the conjuncts satisfying the
matcher form the extract and the remaining conjuncts form the rest.
-/
def extractFromAnd (pred : Expr → Bool) (e : Expr) : Expr × Expr :=
  let cs := andConjuncts e
  (andJoin (cs.filter pred), andJoin (cs.filter (fun c => !pred c)))

/-- The matcher used by the having push-down (`match` / `is`-literal on the label). -/
def havingPushPred (label : String) : Expr → Bool
  | .match_ (.ref n _) _ => n == label
  | .is_ (.ref n _) ex => n == label && ex.isOp "literal"
  | _ => false

/-- The `values` list of a `listFiltered` dimension built from an `is` literal. -/
def litValuesOf : Option Lit → List Lit
  | some (.set _ els) => els
  | some l => [l]
  | none => []

/-- The `values` list of a `listFiltered` dimension built from an `in` literal set. -/
def litElementsOf : Option Lit → List Lit
  | some (.set _ els) => els
  | _ => []

/--
`expressionToDimensionInflaterHaving`: for a SET/STRING split key, pushes
the directly-constraining part of the having filter into the dimension.
-/
def expressionToDimensionInflaterHaving (env : DruidEnv) (e : ExternalV)
    (expression : Expr) (label : String) (havingFilter : Expr) :
    Except String DimensionInflaterHaving :=
  match expressionToDimensionInflater env e expression label with
  | .error m => .error m
  | .ok di =>
    let base : DimensionInflaterHaving :=
      { virtualColumn := di.virtualColumn, dimension := di.dimension,
        inflater := di.inflater, having := havingFilter }
    if expression.typeOf != some (PlyType.SET PlyType.STRING) then .ok base
    else
      let er := extractFromAnd (havingPushPred label) havingFilter
      if er.1.beq Expr.TRUE then .ok base
      else
        match er.1 with
        | .match_ _ pattern =>
          .ok { dimension := .regexFiltered di.dimension pattern,
                inflater := di.inflater, having := er.2, virtualColumn := none }
        | .is_ _ ex =>
          .ok { dimension := .listFiltered di.dimension (litValuesOf ex.getLiteralValue),
                inflater := di.inflater, having := er.2, virtualColumn := none }
        | .in_ _ ex =>
          .ok { dimension := .listFiltered di.dimension (litElementsOf ex.getLiteralValue),
                inflater := di.inflater, having := er.2, virtualColumn := none }
        | _ => .ok base

/-! ### splitToDruid -/

def SplitPairs.isMultiSplit (sp : SplitPairs) : Bool := sp.length > 1

def SplitPairs.firstSplitName (sp : SplitPairs) : String := (sp.headD ("", Expr.TRUE)).1

def SplitPairs.firstSplitExpression (sp : SplitPairs) : Expr := (sp.headD ("", Expr.TRUE)).2

def SplitPairs.hasKey (sp : SplitPairs) : Option String → Bool
  | some n => sp.any (fun p => p.1 == n)
  | none => false

/-- `DruidSplit`: the internal result of `splitToDruid`. -/
structure DruidSplit where
  queryType : String
  timestampLabel : Option String := none
  virtualColumns : Option (List VirtualColumn) := none
  granularity : Granularity
  dimension : Option DimensionSpec := none
  dimensions : Option (List DimensionSpec) := none
  leftoverHavingFilter : Expr
  postTransform : PostT

/-- The `mapSplits` loop of the groupBy branch of `splitToDruid`, threading
the leftover having filter through the per-key push-down. -/
def splitToDruidGroupByFold (env : DruidEnv) (e : ExternalV) :
    SplitPairs → Expr →
    Except String (List VirtualColumn × List DimensionSpec × List Inflater × Expr)
  | [], leftover => .ok ([], [], [], leftover)
  | (name, expression) :: rest, leftover =>
    match expressionToDimensionInflaterHaving env e expression name leftover with
    | .error m => .error m
    | .ok r =>
      match splitToDruidGroupByFold env e rest r.having with
      | .error m => .error m
      | .ok (vcs, dims, infs, leftoverFinal) =>
        .ok (r.virtualColumn.toList ++ vcs, r.dimension :: dims,
             r.inflater.toList ++ infs, leftoverFinal)

/-- `splitToDruid`: chooses timeseries, topN or groupBy for a split. -/
def splitToDruid (env : DruidEnv) (e : ExternalV) (split : SplitPairs) :
    Except String DruidSplit :=
  let leftoverHavingFilter0 := e.havingFilter
  let selectedAttributes := e.getSelectedAttributes
  if e.getQuerySelection == QuerySelection.groupByOnly || split.isMultiSplit then
    match splitToDruidGroupByFold env e split leftoverHavingFilter0 with
    | .error m => .error m
    | .ok (virtualColumns, dimensions, inflaters, leftoverHavingFilter) =>
      .ok { queryType := "groupBy",
            virtualColumns := some virtualColumns,
            dimensions := some dimensions,
            timestampLabel := none,
            granularity := .all,
            leftoverHavingFilter,
            postTransform := .rows inflaters selectedAttributes (some (split.map Prod.fst)) none }
  else
    let splitExpression := split.firstSplitExpression
    let label := split.firstSplitName
    let tsTry : Option (Granularity × Option Inflater) :=
      if e.limit == none && isTimestampCompatibleSort e.sort label &&
         leftoverHavingFilter0.beq Expr.TRUE then
        splitExpressionToGranularityInflater env e splitExpression label
      else none
    match tsTry with
    | some (granularity, inflater) =>
      .ok { queryType := "timeseries",
            granularity,
            leftoverHavingFilter := leftoverHavingFilter0,
            timestampLabel := some label,
            postTransform := .rows inflater.toList selectedAttributes (some [label]) none }
    | none =>
      match expressionToDimensionInflaterHaving env e splitExpression label leftoverHavingFilter0 with
      | .error m => .error m
      | .ok dimensionInflater =>
        let leftoverHavingFilter := dimensionInflater.having
        let inflaters := dimensionInflater.inflater.toList
        if leftoverHavingFilter.beq Expr.TRUE &&
           (e.limit.isSome || env.maxBucketNumber split < 1000) &&
           !e.exactResultsOnly &&
           e.topNCompatibleSort &&
           e.getQuerySelection == QuerySelection.any then
          .ok { queryType := "topN",
                virtualColumns := dimensionInflater.virtualColumn.map (fun v => [v]),
                dimension := some dimensionInflater.dimension,
                granularity := .all,
                leftoverHavingFilter,
                timestampLabel := none,
                postTransform := .rows inflaters selectedAttributes (some [label]) none }
        else
          .ok { queryType := "groupBy",
                virtualColumns := dimensionInflater.virtualColumn.map (fun v => [v]),
                dimensions := some [dimensionInflater.dimension],
                granularity := .all,
                leftoverHavingFilter,
                timestampLabel := none,
                postTransform := .rows inflaters selectedAttributes (some [label]) none }

/-! ### Time-boundary specialization -/

/-- `getTimeBoundaryQueryAndPostTransform`. -/
def getTimeBoundaryQueryAndPostTransform (e : ExternalV) :
    Except String QueryAndPostTransform :=
  let baseFields : QueryFields := { queryType := "timeBoundary", context := e.context }
  match e.mode with
  | .total =>
    let applies := e.applies.getD []
    let fields :=
      if applies.length == 1 then
        { baseFields with
            bound := some ((applies.headD ⟨"", Expr.TRUE⟩).expression.opName ++ "Time") }
      else baseFields
    .ok { query := .mk e.getDruidDataSource fields,
          reqContext := { timestamp := none },
          postTransform := .timeBoundaryT (some applies) }
  | .value =>
    .ok { query := .mk e.getDruidDataSource
            { baseFields with
                bound := some ((e.valueExpression.getD Expr.underscore).opName ++ "Time") },
          reqContext := { timestamp := none },
          postTransform := .timeBoundaryT none }
  | _ => .error "invalid mode for timeBoundary"

/-! ### Nested group-by (re-split) rewrite -/

/-- The exact message of the re-split mismatch error. -/
def resplitMismatchMsg : String := "all resplit aggregators must have the same split"

/-- The `name` of an apply node. -/
def Expr.applyName : Expr → String
  | .apply _ n _ => n
  | _ => ""

/-- The `expression` of an apply node. -/
def Expr.applyExpression : Expr → Expr
  | .apply _ _ ex => ex
  | e => e

/-- The mutable state threaded through the apply-splitting walk. -/
structure RState where
  globalResplitSplit : Option Expr := none
  innerApplies : List ApplyE := []
  outerAttributes : List AttributeInfo := []

/--
The substitution callback of `nestedGroupByIfNeeded` at an aggregate node:
a recognized re-split aggregate is rewritten onto intermediate columns, any
other aggregate is pulled through the intermediate layer, and a custom
aggregate is rejected.
-/
def handleResplitAgg (i : Nat) (c : Nat) (st : RState) (ex : Expr) :
    Except String (Expr × Nat × RState) :=
  match parseResplitAgg ex with
  | some resplit =>
    let checked : Except String RState :=
      match st.globalResplitSplit with
      | some g =>
        if !(Expr.beq g resplit.resplitSplit) then .error resplitMismatchMsg
        else .ok st
      | none => .ok { st with globalResplitSplit := some resplit.resplitSplit }
    match checked with
    | .error m => .error m
    | .ok st =>
      let oldName := resplit.resplitApply.applyName
      let newName := oldName ++ "_" ++ toString i
      let st := { st with
        innerApplies := st.innerApplies ++
          [⟨newName, (resplit.resplitApply.applyExpression).setOption "forceFinalize" true⟩],
        outerAttributes := st.outerAttributes ++
          [{ name := newName, type := some PlyType.NUMBER }] }
      let updated := substituteE (fun x =>
        match x with
        | .ref n t => if n == oldName then some (.ref newName t) else none
        | _ => none) resplit.resplitAgg
      match (resplit.resplitApply.applyExpression).findFilterSub with
      | some filterExpression =>
        let definedFilterName := newName ++ "_def"
        let st := { st with
          innerApplies := st.innerApplies ++ [⟨definedFilterName, .count filterExpression⟩],
          outerAttributes := st.outerAttributes ++
            [{ name := definedFilterName, type := some PlyType.NUMBER }] }
        let updated := updated.changeOperand
          (.filter Expr.underscore (.greaterThan (.ref definedFilterName none) (.literal (.num 0))))
        .ok (updated, c, st)
      | none => .ok (updated, c, st)
  | none =>
    let tempName := "a" ++ toString i ++ "_" ++ toString c
    let st := { st with
      innerApplies := st.innerApplies ++ [⟨tempName, ex⟩],
      outerAttributes := st.outerAttributes ++
        [{ name := tempName, type := ex.typeOf,
           nativeType := if ex.isOp "countDistinct" then some "hyperUnique" else none }] }
    match ex with
    | .count _ => .ok (.sum Expr.underscore (.ref tempName none), c + 1, st)
    | .sum a b =>
      .ok (((Expr.sum a b).changeOperand Expr.underscore).changeExpression (.ref tempName none),
           c + 1, st)
    | .min_ a b =>
      .ok (((Expr.min_ a b).changeOperand Expr.underscore).changeExpression (.ref tempName none),
           c + 1, st)
    | .max_ a b =>
      .ok (((Expr.max_ a b).changeOperand Expr.underscore).changeExpression (.ref tempName none),
           c + 1, st)
    | .countDistinct a b =>
      .ok (((Expr.countDistinct a b).changeOperand Expr.underscore).changeExpression
             (.ref tempName none), c + 1, st)
    | .customAggregate _ _ =>
      .error "can not currently combine custom aggregation and re-split"
    | _ => .error ("bad " ++ ex.opName ++ " aggregate in custom expression")

/-- Replaces the children of a node, in traversal order (generic rebuild). -/
def Expr.withChildren : Expr → List Expr → Expr
  | .and_ _ _, [a, b] => .and_ a b
  | .match_ _ r, [a] => .match_ a r
  | .is_ _ _, [a, b] => .is_ a b
  | .in_ _ _, [a, b] => .in_ a b
  | .greaterThan _ _, [a, b] => .greaterThan a b
  | .fallback _ _, [a, b] => .fallback a b
  | .then_ _ _, [a, b] => .then_ a b
  | .cardinality _, [a] => .cardinality a
  | .timeBucket _ d z, [a] => .timeBucket a d z
  | .timeFloor _ d z, [a] => .timeFloor a d z
  | .timePart _ p z, [a] => .timePart a p z
  | .numberBucket _ s o, [a] => .numberBucket a s o
  | .count _, [a] => .count a
  | .sum _ _, [a, b] => .sum a b
  | .min_ _ _, [a, b] => .min_ a b
  | .max_ _ _, [a, b] => .max_ a b
  | .countDistinct _ _, [a, b] => .countDistinct a b
  | .customAggregate _ cu, [a] => .customAggregate a cu
  | .apply _ n _, [a, b] => .apply a n b
  | .split _ ss, a :: rest => .split a (ss.zipWith (fun p x => (p.1, x)) rest)
  | .filter _ _, [a, b] => .filter a b
  | .withOpts o _, [a] => .withOpts o a
  | e, _ => e

mutual

/--
The stateful `substitute` walk of `nestedGroupByIfNeeded` over one apply
expression: aggregates are rewritten by `handleResplitAgg` (and not
descended into); all other nodes are descended into left-to-right while
threading the per-apply counter and the rewrite state.
-/
def substResplit (i : Nat) : Expr → Nat → RState → Except String (Expr × Nat × RState)
  | .ref n t, c, st => .ok (.ref n t, c, st)
  | .literal v, c, st => .ok (.literal v, c, st)
  | .and_ a b, c, st =>
    match substResplit i a c st with
    | .error m => .error m
    | .ok (a2, c1, s1) =>
      match substResplit i b c1 s1 with
      | .error m => .error m
      | .ok (b2, c2, s2) => .ok (.and_ a2 b2, c2, s2)
  | .is_ a b, c, st =>
    match substResplit i a c st with
    | .error m => .error m
    | .ok (a2, c1, s1) =>
      match substResplit i b c1 s1 with
      | .error m => .error m
      | .ok (b2, c2, s2) => .ok (.is_ a2 b2, c2, s2)
  | .in_ a b, c, st =>
    match substResplit i a c st with
    | .error m => .error m
    | .ok (a2, c1, s1) =>
      match substResplit i b c1 s1 with
      | .error m => .error m
      | .ok (b2, c2, s2) => .ok (.in_ a2 b2, c2, s2)
  | .greaterThan a b, c, st =>
    match substResplit i a c st with
    | .error m => .error m
    | .ok (a2, c1, s1) =>
      match substResplit i b c1 s1 with
      | .error m => .error m
      | .ok (b2, c2, s2) => .ok (.greaterThan a2 b2, c2, s2)
  | .fallback a b, c, st =>
    match substResplit i a c st with
    | .error m => .error m
    | .ok (a2, c1, s1) =>
      match substResplit i b c1 s1 with
      | .error m => .error m
      | .ok (b2, c2, s2) => .ok (.fallback a2 b2, c2, s2)
  | .then_ a b, c, st =>
    match substResplit i a c st with
    | .error m => .error m
    | .ok (a2, c1, s1) =>
      match substResplit i b c1 s1 with
      | .error m => .error m
      | .ok (b2, c2, s2) => .ok (.then_ a2 b2, c2, s2)
  | .filter a b, c, st =>
    match substResplit i a c st with
    | .error m => .error m
    | .ok (a2, c1, s1) =>
      match substResplit i b c1 s1 with
      | .error m => .error m
      | .ok (b2, c2, s2) => .ok (.filter a2 b2, c2, s2)
  | .match_ a re, c, st =>
    match substResplit i a c st with
    | .error m => .error m
    | .ok (a2, c1, s1) => .ok (.match_ a2 re, c1, s1)
  | .cardinality a, c, st =>
    match substResplit i a c st with
    | .error m => .error m
    | .ok (a2, c1, s1) => .ok (.cardinality a2, c1, s1)
  | .timeBucket a d z, c, st =>
    match substResplit i a c st with
    | .error m => .error m
    | .ok (a2, c1, s1) => .ok (.timeBucket a2 d z, c1, s1)
  | .timeFloor a d z, c, st =>
    match substResplit i a c st with
    | .error m => .error m
    | .ok (a2, c1, s1) => .ok (.timeFloor a2 d z, c1, s1)
  | .timePart a pt z, c, st =>
    match substResplit i a c st with
    | .error m => .error m
    | .ok (a2, c1, s1) => .ok (.timePart a2 pt z, c1, s1)
  | .numberBucket a s o, c, st =>
    match substResplit i a c st with
    | .error m => .error m
    | .ok (a2, c1, s1) => .ok (.numberBucket a2 s o, c1, s1)
  | .count a, c, st => handleResplitAgg i c st (.count a)
  | .sum a b, c, st => handleResplitAgg i c st (.sum a b)
  | .min_ a b, c, st => handleResplitAgg i c st (.min_ a b)
  | .max_ a b, c, st => handleResplitAgg i c st (.max_ a b)
  | .countDistinct a b, c, st => handleResplitAgg i c st (.countDistinct a b)
  | .customAggregate a cu, c, st => handleResplitAgg i c st (.customAggregate a cu)
  | .apply a n b, c, st =>
    match substResplit i a c st with
    | .error m => .error m
    | .ok (a2, c1, s1) =>
      match substResplit i b c1 s1 with
      | .error m => .error m
      | .ok (b2, c2, s2) => .ok (.apply a2 n b2, c2, s2)
  | .split a ss, c, st =>
    match substResplit i a c st with
    | .error m => .error m
    | .ok (a2, c1, s1) =>
      match substResplitPairs i ss c1 s1 with
      | .error m => .error m
      | .ok (ss2, c2, s2) => .ok (.split a2 ss2, c2, s2)
  | .withOpts o a, c, st =>
    if (Expr.withOpts o a).isAggregate then handleResplitAgg i c st (.withOpts o a)
    else
      match substResplit i a c st with
      | .error m => .error m
      | .ok (a2, c1, s1) => .ok (.withOpts o a2, c1, s1)

def substResplitPairs (i : Nat) :
    List (String × Expr) → Nat → RState → Except String (List (String × Expr) × Nat × RState)
  | [], c, st => .ok ([], c, st)
  | (n, x) :: rest, c, st =>
    match substResplit i x c st with
    | .error m => .error m
    | .ok (x2, c1, s1) =>
      match substResplitPairs i rest c1 s1 with
      | .error m => .error m
      | .ok (rest2, c2, s2) => .ok ((n, x2) :: rest2, c2, s2)

end

/-- The re-split split recognized at one aggregate node, if any. -/
def collectAggResplit (e : Expr) : List Expr :=
  match parseResplitAgg e with
  | some r => [r.resplitSplit]
  | none => []

mutual

/--
The re-split splits recognized by the walk, in walk order: a mirror of
`substResplit` that records `parseResplitAgg` results (the walk replaces
every aggregate without descending into it).
-/
def collectResplits : Expr → List Expr
  | .ref _ _ => []
  | .literal _ => []
  | .and_ a b => collectResplits a ++ collectResplits b
  | .is_ a b => collectResplits a ++ collectResplits b
  | .in_ a b => collectResplits a ++ collectResplits b
  | .greaterThan a b => collectResplits a ++ collectResplits b
  | .fallback a b => collectResplits a ++ collectResplits b
  | .then_ a b => collectResplits a ++ collectResplits b
  | .filter a b => collectResplits a ++ collectResplits b
  | .match_ a _ => collectResplits a
  | .cardinality a => collectResplits a
  | .timeBucket a _ _ => collectResplits a
  | .timeFloor a _ _ => collectResplits a
  | .timePart a _ _ => collectResplits a
  | .numberBucket a _ _ => collectResplits a
  | .count a => collectAggResplit (.count a)
  | .sum a b => collectAggResplit (.sum a b)
  | .min_ a b => collectAggResplit (.min_ a b)
  | .max_ a b => collectAggResplit (.max_ a b)
  | .countDistinct a b => collectAggResplit (.countDistinct a b)
  | .customAggregate a cu => collectAggResplit (.customAggregate a cu)
  | .apply a _ b => collectResplits a ++ collectResplits b
  | .split a ss => collectResplits a ++ collectResplitsPairs ss
  | .withOpts o a =>
    if (Expr.withOpts o a).isAggregate then collectAggResplit (.withOpts o a)
    else collectResplits a

def collectResplitsPairs : List (String × Expr) → List Expr
  | [] => []
  | (_, x) :: r => collectResplits x ++ collectResplitsPairs r

end

/--
An aggregate the walk can rewrite without failing: a recognized re-split,
or one of the pull-through kinds.
-/
def aggKindOk (e : Expr) : Bool :=
  if (parseResplitAgg e).isSome then true
  else
    match e with
    | .count _ => true
    | .sum _ _ => true
    | .min_ _ _ => true
    | .max_ _ _ => true
    | .countDistinct _ _ => true
    | _ => false

mutual

/--
The walk hits no non-re-split custom (or malformed) aggregate: every
aggregate it reaches is either a recognized re-split or one of the
pull-through kinds (count, sum, min, max, countDistinct).
-/
def walkAggsOk : Expr → Bool
  | .ref _ _ => true
  | .literal _ => true
  | .and_ a b => walkAggsOk a && walkAggsOk b
  | .is_ a b => walkAggsOk a && walkAggsOk b
  | .in_ a b => walkAggsOk a && walkAggsOk b
  | .greaterThan a b => walkAggsOk a && walkAggsOk b
  | .fallback a b => walkAggsOk a && walkAggsOk b
  | .then_ a b => walkAggsOk a && walkAggsOk b
  | .filter a b => walkAggsOk a && walkAggsOk b
  | .match_ a _ => walkAggsOk a
  | .cardinality a => walkAggsOk a
  | .timeBucket a _ _ => walkAggsOk a
  | .timeFloor a _ _ => walkAggsOk a
  | .timePart a _ _ => walkAggsOk a
  | .numberBucket a _ _ => walkAggsOk a
  | .count _ => true
  | .sum _ _ => true
  | .min_ _ _ => true
  | .max_ _ _ => true
  | .countDistinct _ _ => true
  | .customAggregate a cu => (parseResplitAgg (.customAggregate a cu)).isSome
  | .apply a _ b => walkAggsOk a && walkAggsOk b
  | .split a ss => walkAggsOk a && walkAggsOkPairs ss
  | .withOpts o a =>
    if (Expr.withOpts o a).isAggregate then aggKindOk (.withOpts o a)
    else walkAggsOk a

def walkAggsOkPairs : List (String × Expr) → Bool
  | [] => true
  | (_, x) :: r => walkAggsOk x && walkAggsOkPairs r

end

/-- The per-apply loop of the apply-splitting phase (`i` is the apply index). -/
def splitUpApplies (i : Nat) (applies : List ApplyE) (st : RState) :
    Except String (List ApplyE × RState) :=
  match applies with
  | [] => .ok ([], st)
  | a :: rest =>
    match substResplit i a.expression 0 st with
    | .error m => .error m
    | .ok (ex2, _, st2) =>
      match splitUpApplies (i + 1) rest st2 with
      | .error m => .error m
      | .ok (rest2, st3) => .ok ({ a with expression := ex2 } :: rest2, st3)

/-- `applies ? applies : [Expression._.apply("__VALUE__", valueExpression)]`. -/
def effectiveApplies (e : ExternalV) : List ApplyE :=
  match e.applies with
  | some l => l
  | none => [⟨"__VALUE__", e.valueExpression.getD Expr.underscore⟩]

/-- All re-split splits recognized across the effective applies, walk order. -/
def appliesResplits (e : ExternalV) : List Expr :=
  (effectiveApplies e).flatMap (fun a => collectResplits a.expression)

/-- `divvyUpNestedSplitExpression`: buckets are re-applied on the outer level. -/
def divvyUpNestedSplitExpression (splitExpression : Expr) (intermediateName : String) :
    Expr × Expr :=
  match splitExpression with
  | .timeBucket a d z => (.timeBucket a d z, .timeBucket (.ref intermediateName none) d z)
  | .numberBucket a s o => (.numberBucket a s o, .numberBucket (.ref intermediateName none) s o)
  | e => (e, .ref intermediateName none)

/-- The outer split key matching a re-split key by expression equality (last match). -/
def findOuterSplitName (split : Option SplitPairs) (ex : Expr) : Option String :=
  match split with
  | none => none
  | some sp => sp.foldl (fun acc p => if Expr.beq ex p.2 then some p.1 else acc) none

/--
The first splits-merging loop: over the keys of the global re-split split,
divvying each between inner and outer and recording the intermediate
attribute.  Returns (outerSplits, innerSplits, attributes, next counter).
-/
def globalSplitsLoop (split : Option SplitPairs) :
    List (String × Expr) → Nat → SplitPairs × SplitPairs × List AttributeInfo × Nat
  | [], splitCount => ([], [], [], splitCount)
  | (_, ex) :: rest, splitCount =>
    let outerSplitName := findOuterSplitName split ex
    let intermediateName := "s" ++ toString splitCount
    let divvy := divvyUpNestedSplitExpression ex intermediateName
    let r := globalSplitsLoop split rest (splitCount + 1)
    ((match outerSplitName with
      | some n => (n, divvy.2) :: r.1
      | none => r.1),
     (intermediateName, divvy.1) :: r.2.1,
     ({ name := intermediateName, type := divvy.1.typeOf } : AttributeInfo) :: r.2.2.1,
     r.2.2.2)

/--
The second splits-merging loop: the remaining outer split keys (those not
already matched to a re-split key) are passed through as intermediates.
-/
def residualSplitsLoop (outerSoFar : SplitPairs) :
    SplitPairs → Nat → SplitPairs × SplitPairs × List AttributeInfo
  | [], _ => ([], [], [])
  | (name, ex) :: rest, splitCount =>
    if outerSoFar.any (fun p => p.1 == name) then
      residualSplitsLoop outerSoFar rest splitCount
    else
      let intermediateName := "s" ++ toString splitCount
      let divvy := divvyUpNestedSplitExpression ex intermediateName
      let r := residualSplitsLoop outerSoFar rest (splitCount + 1)
      ((name, divvy.2) :: r.1, (intermediateName, divvy.1) :: r.2.1,
       ({ name := intermediateName, type := divvy.1.typeOf } : AttributeInfo) :: r.2.2)

/-- The inner and outer planner snapshots of a re-split plan. -/
structure ResplitPlan where
  inner : ExternalV
  outer : ExternalV
  outerAttributes : List AttributeInfo

/--
The construction phase of `nestedGroupByIfNeeded`: the early-exit checks,
the apply-splitting walk, the splits merge, and the inner and outer
planner snapshots (everything up to issuing the two recursive plans).
-/
def nestedGroupByPlan (e : ExternalV) : Except String (Option ResplitPlan) :=
  let effApplies := effectiveApplies e
  if !(effApplies.any (fun a => a.expression.containsSplit)) then .ok none
  else
    match splitUpApplies 0 effApplies {} with
    | .error m => .error m
    | .ok (outerApplies, st) =>
      match st.globalResplitSplit with
      | none => .ok none
      | some globalResplitSplit =>
        let globalSplits :=
          match globalResplitSplit with
          | .split _ ss => ss
          | _ => []
        let g1 := globalSplitsLoop e.split globalSplits 0
        let g2 := residualSplitsLoop g1.1 (e.split.getD []) g1.2.2.2
        let outerSplits := g1.1 ++ g2.1
        let innerSplits := g1.2.1 ++ g2.2.1
        let outerAttributes := st.outerAttributes ++ g1.2.2.1 ++ g2.2.2
        let innerExternal : ExternalV := { e with
          mode := .split,
          applies := some st.innerApplies,
          querySelection := some .groupByOnly,
          split := some innerSplits,
          limit := none,
          sort := none }
        let outerExternal : ExternalV := { e with
          rawAttributes := outerAttributes,
          applies := (match e.applies with
                      | some _ => some outerApplies
                      | none => e.applies),
          valueExpression := (match e.applies with
                              | some _ => e.valueExpression
                              | none => some ((outerApplies.headD ⟨"", Expr.TRUE⟩).expression)),
          filter := Expr.TRUE,
          allowEternity := true,
          querySelection := some .groupByOnly,
          split := (match e.split with
                    | some _ => some outerSplits
                    | none => e.split) }
        .ok (some ⟨innerExternal, outerExternal, outerAttributes⟩)

/--
The assembly phase of `nestedGroupByIfNeeded`: plans the inner and outer
externals through `recurse` and nests the context-stripped inner query as
the outer data source.
-/
def nestedGroupByWith (recurse : ExternalV → Except String QueryAndPostTransform)
    (e : ExternalV) : Except String (Option QueryAndPostTransform) :=
  match nestedGroupByPlan e with
  | .error m => .error m
  | .ok none => .ok none
  | .ok (some p) =>
    match recurse p.inner with
    | .error m => .error m
    | .ok innerQPT =>
      let innerQuery := innerQPT.query.stripContext
      match recurse p.outer with
      | .error m => .error m
      | .ok outerQPT =>
        .ok (some { outerQPT with
          query := outerQPT.query.setDataSource (.query innerQuery) })

/-! ### getQueryAndPostTransform -/

/-- The virtual-column loop of the scan (raw) branch. -/
def rawVirtualColumns (env : DruidEnv) (e : ExternalV) :
    List AttributeInfo → Except String (List VirtualColumn)
  | [] => .ok []
  | attrInfo :: rest =>
    let head : Except String (Option VirtualColumn) :=
      if attrInfo.nativeType == some "__time" && attrInfo.name != "__time" then
        .ok (some ⟨attrInfo.name, "__time", some "STRING"⟩)
      else
        match e.derivedAttributes.lookup attrInfo.name with
        | some derivedAttribute =>
          match env.druidExpression derivedAttribute with
          | some druidExpression => .ok (some ⟨attrInfo.name, druidExpression, some "STRING"⟩)
          | none => .error "could not convert derived attribute to Druid expression"
        | none => .ok none
    match head with
    | .error m => .error m
    | .ok vc =>
      match rawVirtualColumns env e rest with
      | .error m => .error m
      | .ok vcs => .ok (vc.toList ++ vcs)

/-- The per-type row inflaters of the scan (raw) branch. -/
def rawInflaters (attributes : List AttributeInfo) : List Inflater :=
  attributes.filterMap (fun a =>
    match a.type with
    | some .BOOLEAN => some (.booleanI a.name)
    | some .NUMBER => some (.numberI a.name)
    | some .TIME => some (.timeI a.name)
    | some (.SET .STRING) => some (.setStringI a.name)
    | _ => none)

/--
`getQueryAndPostTransform`: the top-level planning entry point.  The
recursion through the nested group-by rewrite is bounded by explicit fuel;
fuel exhaustion is reported as an error.
-/
def getQueryAndPostTransform (env : DruidEnv) :
    Nat → ExternalV → Except String QueryAndPostTransform
  | 0, _ => .error "recursion limit exceeded"
  | fuel + 1, e =>
    let tbTry : Option (Except String QueryAndPostTransform) :=
      if e.querySelection != some QuerySelection.groupByOnly then
        if e.mode == Mode.total &&
           (match e.applies with
            | some l => !l.isEmpty && l.all (fun a => e.isMinMaxTimeExpression a.expression)
            | none => false) then
          some (getTimeBoundaryQueryAndPostTransform e)
        else if e.mode == Mode.value &&
                (match e.valueExpression with
                 | some v => e.isMinMaxTimeExpression v
                 | none => false) then
          some (getTimeBoundaryQueryAndPostTransform e)
        else none
      else none
    match tbTry with
    | some r => r
    | none =>
      match env.filterToDruid e.getQueryFilter with
      | .error m => .error m
      | .ok (intervals, filter) =>
        let baseFields : QueryFields :=
          { queryType := "timeseries", intervals := some intervals,
            granularity := .all, filter, context := e.context }
        let requesterContext : RequesterContext :=
          { timestamp := none, ignorePrefixStr := some "!", dummyPrefixStr := some "***" }
        match e.mode with
        | .raw =>
          if !e.allowSelectQueries then
            .error "to issue scan or select queries allowSelectQueries flag must be set"
          else
            let selectedAttributes := e.getSelectedAttributes
            match rawVirtualColumns env e selectedAttributes with
            | .error m => .error m
            | .ok virtualColumns =>
              let columns := selectedAttributes.map (fun a => a.name)
              let inflaters := rawInflaters selectedAttributes
              let hasTimeOrder :=
                match e.sort with
                | some sort =>
                  sort.refName == some e.timeAttribute &&
                    (e.select.getD []).contains e.timeAttribute
                | none => false
              let columns2 :=
                if hasTimeOrder && !columns.contains "__time" then columns ++ ["__time"]
                else columns
              let fields := { baseFields with
                queryType := "scan",
                resultFormat := some "compactedList",
                virtualColumns := if virtualColumns.isEmpty then none else some virtualColumns,
                columns := some columns2,
                order :=
                  if hasTimeOrder then
                    some ((e.sort.map (fun s => s.direction.name)).getD "")
                  else none,
                limit := e.limit }
              .ok { query := .mk e.getDruidDataSource fields,
                    reqContext := requesterContext,
                    postTransform :=
                      .rows inflaters (selectedAttributes.map AttributeInfo.dropOriginInfo)
                        none none }
        | .value =>
          match nestedGroupByWith (getQueryAndPostTransform env fuel) e with
          | .error m => .error m
          | .ok (some r) => .ok r
          | .ok none =>
            match env.makeAggregations e [e.toValueApply] with
            | .error m => .error m
            | .ok (aggregations, postAggregations) =>
              let fields := { baseFields with aggregations, postAggregations }
              let fields :=
                if e.querySelection == some QuerySelection.groupByOnly then
                  { fields with queryType := "groupBy", dimensions := some [] }
                else fields
              .ok { query := .mk e.getDruidDataSource fields,
                    reqContext := requesterContext,
                    postTransform := .valueT }
        | .total =>
          match nestedGroupByWith (getQueryAndPostTransform env fuel) e with
          | .error m => .error m
          | .ok (some r) => .ok r
          | .ok none =>
            match env.makeAggregations e (e.applies.getD []) with
            | .error m => .error m
            | .ok (aggregations, postAggregations) =>
              let fields := { baseFields with aggregations, postAggregations }
              let fields :=
                if e.querySelection == some QuerySelection.groupByOnly then
                  { fields with queryType := "groupBy", dimensions := some [] }
                else fields
              .ok { query := .mk e.getDruidDataSource fields,
                    reqContext := requesterContext,
                    postTransform := .rows [] e.getSelectedAttributes (some []) e.applies }
        | .split =>
          match nestedGroupByWith (getQueryAndPostTransform env fuel) e with
          | .error m => .error m
          | .ok (some r) => .ok r
          | .ok none =>
            match e.getQuerySplit with
            | none => .error "no split"
            | some split =>
              match splitToDruid env e split with
              | .error m => .error m
              | .ok splitSpec =>
                let leftoverHavingFilter := splitSpec.leftoverHavingFilter
                let requesterContext2 :=
                  { requesterContext with timestamp := splitSpec.timestampLabel }
                match env.makeAggregations e (e.applies.getD []) with
                | .error m => .error m
                | .ok (aggregations, postAggregations) =>
                  let fields1 := { baseFields with
                    queryType := splitSpec.queryType,
                    granularity := splitSpec.granularity,
                    virtualColumns :=
                      (match splitSpec.virtualColumns with
                       | some l => if l.isEmpty then none else some l
                       | none => none),
                    dimension := splitSpec.dimension,
                    dimensions := splitSpec.dimensions,
                    aggregations, postAggregations }
                  let finish : QueryFields → Except String QueryAndPostTransform := fun f =>
                    .ok { query := .mk e.getDruidDataSource f,
                          reqContext := requesterContext2,
                          postTransform := splitSpec.postTransform }
                  if fields1.queryType == "timeseries" then
                    let sortChecked : Except String QueryFields :=
                      match e.sort with
                      | some sort =>
                        if !(split.hasKey sort.refName) then
                          .error "can not sort within timeseries query"
                        else if sort.direction == SortDirection.descending then
                          .ok { fields1 with descending := true }
                        else .ok fields1
                      | none => .ok fields1
                    match sortChecked with
                    | .error m => .error m
                    | .ok fields2 =>
                      if e.limit.isSome then .error "can not limit within timeseries query"
                      else
                        let fields3 :=
                          if (match fields2.context with
                              | some l => (l.lookup "skipEmptyBuckets").isNone
                              | none => true) then
                            { fields2 with
                                context :=
                                  some ((fields2.context.getD []) ++
                                    [("skipEmptyBuckets", "true")]) }
                          else fields2
                        finish fields3
                  else if fields1.queryType == "topN" then
                    let metric : TopNMetricSpec :=
                      match e.sort with
                      | some sort =>
                        let m0 : TopNMetricSpec × Bool :=
                          if e.sortOnLabel then
                            (if expressionNeedsNumericSort split.firstSplitExpression then
                               .dimensionOrd "numeric"
                             else .dimensionOrd "lexicographic",
                             sort.direction == SortDirection.descending)
                          else
                            (.field (sort.refName.getD ""),
                             sort.direction == SortDirection.ascending)
                        if m0.2 then .inverted m0.1 else m0.1
                      | none => .dimensionOrd "lexicographic"
                    finish { fields1 with
                      metric := some metric,
                      threshold := some (e.limit.getD 1000) }
                  else if fields1.queryType == "groupBy" then
                    let limitSpec0 : Option LimitSpec :=
                      match e.sort with
                      | some sort =>
                        let col := sort.refName.getD ""
                        let dimensionOrder :=
                          if e.sortOnLabel &&
                             expressionNeedsNumericSort ((split.lookup col).getD Expr.TRUE) then
                            some "numeric"
                          else none
                        some { columns :=
                          [.full (makeOutputName col) sort.direction.name dimensionOrder] }
                      | none => none
                    let limitSpec1 : Option LimitSpec :=
                      match e.limit with
                      | some lim =>
                        some (match limitSpec0 with
                              | some ls => { ls with limit := some lim }
                              | none =>
                                { columns := [.name (makeOutputName split.firstSplitName)],
                                  limit := some lim })
                      | none => limitSpec0
                    if leftoverHavingFilter.beq Expr.TRUE then
                      finish { fields1 with limitSpec := limitSpec1 }
                    else
                      match env.havingToFilter e leftoverHavingFilter with
                      | .error m => .error m
                      | .ok h =>
                        finish { fields1 with limitSpec := limitSpec1, having := some h }
                  else finish fields1

/-- `nestedGroupByIfNeeded` at a given recursion budget. -/
def nestedGroupByIfNeeded (env : DruidEnv) (fuel : Nat) (e : ExternalV) :
    Except String (Option QueryAndPostTransform) :=
  nestedGroupByWith (getQueryAndPostTransform env fuel) e

/-! ### Introspection via segmentMetadata -/

inductive IntrospectionDepth where
  | shallow
  | medium
  | deep
deriving DecidableEq, Repr

/-- The `analysisTypes` requested from segmentMetadata. -/
def introspectAnalysisTypes (depth : IntrospectionDepth) : List String :=
  if depth == .deep then ["aggregators", "cardinality", "minmax"]
  else ["aggregators"]

/-- One column of a segmentMetadata response. -/
structure ColumnMetadata where
  typeName : String
  errorMessage : Option String := none
  size : Int := 0
  cardinality : Option Nat := none
  hasMultipleValues : Bool := false
  minValue : Option String := none
  maxValue : Option String := none
deriving DecidableEq, Repr

/-- One aggregator spec of a segmentMetadata response. -/
structure AggSpec where
  typeName : String
  fieldName : Option String := none
  fieldNames : Option (List String) := none
  fnAggregate : Option String := none
  fnCombine : Option String := none
deriving DecidableEq, Repr

/-- The merged first entry of a segmentMetadata response. -/
structure SegRes0 where
  columns : Option (List (String × ColumnMetadata)) := none
  aggregators : List (String × AggSpec) := []
deriving DecidableEq, Repr

/-- `columnMetadataToRange`. -/
def columnMetadataToRange (cd : ColumnMetadata) : Option RangeV :=
  match cd.minValue, cd.maxValue with
  | some mn, some mx => some ⟨mn, mx⟩
  | _, _ => none

/-- `DruidExternal.generateMaker`: guesses the maker from an aggregator spec. -/
def generateMaker (aggregation : Option AggSpec) : Option Expr :=
  match aggregation with
  | none => none
  | some agg =>
    if agg.typeName == "longSum" && agg.fieldName == some "count" then
      some (.count Expr.underscore)
    else
      let resolvedFieldName : Option String :=
        match agg.fieldName with
        | some f => some f
        | none =>
          match agg.fieldNames with
          | some [f] => some f
          | _ => none
      match resolvedFieldName with
      | none => none
      | some fieldName =>
        let expression := Expr.ref fieldName none
        if agg.typeName == "count" then some (.count Expr.underscore)
        else if agg.typeName == "doubleSum" || agg.typeName == "longSum" then
          some (.sum Expr.underscore expression)
        else if agg.typeName == "javascript" then
          match agg.fnAggregate, agg.fnCombine with
          | some fa, some fc =>
            if fa == fc && fc.contains '+' then some (.sum Expr.underscore expression)
            else none
          | _, _ => none
        else if agg.typeName == "doubleMin" || agg.typeName == "longMin" then
          some (.min_ Expr.underscore expression)
        else if agg.typeName == "doubleMax" || agg.typeName == "longMax" then
          some (.max_ Expr.underscore expression)
        else none

/--
The column loop of `segmentMetadataPostProcess`: the time column is
unshifted to the front of the attributes gathered so far, every other
valid column is appended; the flag records whether `__time` was found.
-/
def processColumns (timeAttribute : String) (aggregators : List (String × AggSpec)) :
    List (String × ColumnMetadata) → List AttributeInfo → Bool → List AttributeInfo × Bool
  | [], acc, found => (acc, found)
  | (name, columnData) :: rest, acc, found =>
    if columnData.errorMessage.isSome || columnData.size < 0 then
      processColumns timeAttribute aggregators rest acc found
    else if name == "__time" then
      processColumns timeAttribute aggregators rest
        (({ name := timeAttribute, type := some .TIME, nativeType := some "__time",
            cardinality := columnData.cardinality,
            range := columnMetadataToRange columnData } : AttributeInfo) :: acc)
        true
    else if name == timeAttribute then
      processColumns timeAttribute aggregators rest acc found
    else
      let nativeType := columnData.typeName
      let newAttr : AttributeInfo :=
        if nativeType == "DOUBLE" || nativeType == "FLOAT" || nativeType == "LONG" then
          { name, type := some .NUMBER, nativeType := some nativeType,
            unsplitable := ((aggregators.lookup name).isSome : Bool),
            maker := generateMaker (aggregators.lookup name),
            cardinality := columnData.cardinality,
            range := columnMetadataToRange columnData }
        else if nativeType == "STRING" then
          { name,
            type := some (if columnData.hasMultipleValues then .SET .STRING else .STRING),
            nativeType := some nativeType,
            cardinality := columnData.cardinality,
            range := columnMetadataToRange columnData }
        else if nativeType == "hyperUnique" || nativeType == "approximateHistogram" ||
                nativeType == "thetaSketch" || nativeType == "HLLSketch" ||
                nativeType == "quantilesDoublesSketch" then
          { name, type := some .NULL, nativeType := some nativeType, unsplitable := true }
        else
          { name, type := some .NULL, nativeType := some nativeType }
      processColumns timeAttribute aggregators rest (acc ++ [newAttr]) found

/-- `segmentMetadataPostProcess`. -/
def segmentMetadataPostProcess (timeAttribute : String) (res : List SegRes0) :
    Except String (List AttributeInfo) :=
  match res.head? with
  | none => .error "malformed segmentMetadata response"
  | some res0 =>
    match res0.columns with
    | none => .error "malformed segmentMetadata response"
    | some columns =>
      let r := processColumns timeAttribute res0.aggregators columns [] false
      if !r.2 then .error "no valid __time in segmentMetadata response"
      else .ok r.1

/-- A timeBoundary response row. -/
structure TimeBoundaryRes where
  minTime : String
  maxTime : String
deriving DecidableEq, Repr

/--
The follow-up condition of `introspectAttributesWithSegmentMetadata`:
`depth !== "shallow" && attributes.length &&
 attributes[0].nativeType === "__time" && !attributes[0].range`.
-/
def timeBoundaryFollowUpNeeded (depth : IntrospectionDepth)
    (attributes : List AttributeInfo) : Bool :=
  depth != IntrospectionDepth.shallow &&
    (match attributes.head? with
     | some a => a.nativeType == some "__time" && a.range == none
     | none => false)

/-- `attributes[0] = attributes[0].changeRange(...)` from the timeBoundary row. -/
def setHeadRange (attributes : List AttributeInfo) (r : TimeBoundaryRes) :
    List AttributeInfo :=
  match attributes with
  | [] => []
  | a :: rest => a.changeRange ⟨r.minTime, r.maxTime⟩ :: rest

/--
`introspectAttributesWithSegmentMetadata`: the requester is abstracted by
passing the segmentMetadata response and the outcome of the (potential)
follow-up timeBoundary query; a failed follow-up (`Except.error`) is
swallowed and the segmentMetadata attributes are returned unchanged.
-/
def introspectAttributesWithSegmentMetadata (timeAttribute : String)
    (depth : IntrospectionDepth) (segRes : List SegRes0)
    (timeBoundaryRes : Except Unit TimeBoundaryRes) :
    Except String (List AttributeInfo) :=
  match segmentMetadataPostProcess timeAttribute segRes with
  | .error m => .error m
  | .ok attributes =>
    if timeBoundaryFollowUpNeeded depth attributes then
      match timeBoundaryRes with
      | .ok r => .ok (setHeadRange attributes r)
      | .error _ => .ok attributes
    else .ok attributes

/-! ### SQLExternal -/

/--
The dialect and expression-rendering collaborators of `SQLExternal`
(`SQLDialect` and the `getSQL` family live outside the planner files).
-/
structure SqlEnv where
  escapeName : String → String
  emptyGroupBy : String
  exprSQL : Expr → String
  applySQL : ApplyE → String
  sortSQL : SortE → String
  limitSQL : Nat → String
  splitSelectSQL : SplitPairs → List String
  splitShortGroupBySQL : SplitPairs → List String
  splitGroupBySQL : SplitPairs → List String
  simpleInflaterByType : Option PlyType → String → Option Inflater
  intelligentInflater : Expr → String → Option Inflater

/-- `SQLExternal.capability`: filter-on-attribute and shortcut-group-by hold. -/
def sqlCapability (cap : String) : Bool :=
  cap == "filter-on-attribute" || cap == "shortcut-group-by"

/-- The `source as string` coercion used by `getFrom`. -/
def sqlSourceName : SourceT → String
  | .one s => s
  | .many l => String.intercalate "," l

/-- `SQLExternal.getFrom`. -/
def sqlGetFrom (senv : SqlEnv) (e : ExternalV) : String :=
  match e.withQuery with
  | some _ => "FROM __with__ AS t"
  | none => "FROM " ++ senv.escapeName (sqlSourceName e.source) ++ " AS t"

/--
`SQLExternal.getQueryAndPostTransform`, query side: the pushed clause
strings in order.  The final SQL string joins them with newlines.
-/
def sqlQueryParts (senv : SqlEnv) (e : ExternalV) : Except String (List String) :=
  let withPart : List String :=
    match e.withQuery with
    | some w => ["WITH __with__ AS (" ++ w ++ ")"]
    | none => []
  let query0 := withPart ++ ["SELECT"]
  let filter := e.getQueryFilter
  let fromClause :=
    if !(filter.beq Expr.TRUE) then
      sqlGetFrom senv e ++ "\nWHERE " ++ senv.exprSQL filter
    else sqlGetFrom senv e
  match e.mode with
  | .raw =>
    let selectedAttributes := (e.getSelectedAttributes).map AttributeInfo.dropOriginInfo
    let selectList := String.intercalate ", " (selectedAttributes.map (fun a =>
      match e.derivedAttributes.lookup a.name with
      | some derived => senv.applySQL ⟨a.name, derived⟩
      | none => senv.escapeName a.name))
    .ok (query0 ++ [selectList, fromClause] ++
      (match e.sort with | some s => [senv.sortSQL s] | none => []) ++
      (match e.limit with | some l => [senv.limitSQL l] | none => []))
  | .value =>
    .ok (query0 ++ [senv.applySQL e.toValueApply, fromClause, senv.emptyGroupBy])
  | .total =>
    .ok (query0 ++
      [String.intercalate ",\n" ((e.applies.getD []).map senv.applySQL), fromClause,
       senv.emptyGroupBy])
  | .split =>
    match e.getQuerySplit with
    | none => .error "no split"
    | some split =>
      .ok (query0 ++
        [String.intercalate ",\n"
           (senv.splitSelectSQL split ++ (e.applies.getD []).map senv.applySQL),
         fromClause,
         "GROUP BY " ++ String.intercalate ","
           (if sqlCapability "shortcut-group-by" then senv.splitShortGroupBySQL split
            else senv.splitGroupBySQL split)] ++
        (if !(e.havingFilter.beq Expr.TRUE) then
           ["HAVING " ++ senv.exprSQL e.havingFilter]
         else []) ++
        (match e.sort with | some s => [senv.sortSQL s] | none => []) ++
        (match e.limit with | some l => [senv.limitSQL l] | none => []))

/-- The SQL query string: the parts joined by newlines. -/
def sqlQuery (senv : SqlEnv) (e : ExternalV) : Except String String :=
  (sqlQueryParts senv e).map (String.intercalate "\n")

/-- `SQLExternal.getQueryAndPostTransform`, post-transform side. -/
def sqlPostTransform (senv : SqlEnv) (e : ExternalV) : Except String PostT :=
  match e.mode with
  | .raw =>
    let selectedAttributes := (e.getSelectedAttributes).map AttributeInfo.dropOriginInfo
    .ok (.rows
      (selectedAttributes.filterMap (fun a =>
        match a.type with
        | some .BOOLEAN => some (.booleanI a.name)
        | some .TIME => some (.timeI a.name)
        | some (.SET .STRING) => some (.setStringI a.name)
        | _ => none))
      selectedAttributes none none)
  | .value => .ok .valueT
  | .total =>
    .ok (.rows
      ((e.applies.getD []).filterMap (fun a =>
        senv.simpleInflaterByType a.expression.typeOf a.name))
      e.getSelectedAttributes (some []) e.applies)
  | .split =>
    match e.getQuerySplit with
    | none => .error "no split"
    | some split =>
      .ok (.rows
        (split.filterMap (fun p => senv.intelligentInflater p.2 p.1))
        e.getSelectedAttributes (some (split.map Prod.fst)) none)

/-! ### Specification-side decision functions -/

/--
The shape-decision table of the specification for split mode (spec §4.1),
written from the three split rows of the table: timeseries for a single
split with time-compatible sort, no limit, trivial having and a derivable
granularity; topN for a single split with trivial leftover having after
push-down, a limit or a bounded bucket count, no exactResultsOnly, a
topN-compatible sort and querySelection `any`; groupBy otherwise
(including multi-split and `group-by-only`).
-/
def splitQueryTypeSpec (env : DruidEnv) (e : ExternalV) (split : SplitPairs) : String :=
  if e.getQuerySelection == QuerySelection.groupByOnly || split.isMultiSplit then "groupBy"
  else if (e.limit == none &&
           isTimestampCompatibleSort e.sort split.firstSplitName &&
           e.havingFilter.beq Expr.TRUE) &&
          (splitExpressionToGranularityInflater env e split.firstSplitExpression
            split.firstSplitName).isSome then
    "timeseries"
  else if (match expressionToDimensionInflaterHaving env e split.firstSplitExpression
                 split.firstSplitName e.havingFilter with
           | .ok d => d.having.beq Expr.TRUE
           | .error _ => false) &&
          (e.limit.isSome || env.maxBucketNumber split < 1000) &&
          !e.exactResultsOnly &&
          e.topNCompatibleSort &&
          e.getQuerySelection == QuerySelection.any then
    "topN"
  else "groupBy"

/-- The seed split after scanning a list of recognized re-split splits. -/
def seedAfter (g : Option Expr) (l : List Expr) : Option Expr :=
  match g with
  | some g0 => some g0
  | none => l.head?

/--
Whether every recognized re-split split agrees with the seed (the already
fixed global split, or else the first recognized one).
-/
def seedCompat (g : Option Expr) (l : List Expr) : Bool :=
  match g with
  | some g0 => l.all (fun s => Expr.beq g0 s)
  | none =>
    match l with
    | [] => true
    | s0 :: rest => rest.all (fun s => Expr.beq s0 s)

/--
"All re-split aggregates share the same inner split" (spec §4.4 step 1):
every recognized split equals the first recognized one.
-/
def allShareSplit (l : List Expr) : Bool := seedCompat none l

/-- Whether an Except value succeeded. -/
def exceptIsOk {ε α : Type} : Except ε α → Bool
  | .ok _ => true
  | .error _ => false

/--
The contract of one stage of the apply-splitting walk: if every re-split
split it recognizes (`col`) agrees with the seed, the stage succeeds and
leaves the global split at `seedAfter`; otherwise it fails with the
mismatch error.
-/
def WalkSpec {α : Type} (walk : Nat → RState → Except String (α × Nat × RState))
    (col : List Expr) : Prop :=
  ∀ c st,
    (seedCompat st.globalResplitSplit col = true →
      ∃ y, walk c st = .ok y ∧
        y.2.2.globalResplitSplit = seedAfter st.globalResplitSplit col) ∧
    (seedCompat st.globalResplitSplit col = false →
      walk c st = .error resplitMismatchMsg)

/-! ### Concrete instances used by the witnesses and counterexamples -/

/-- A concrete collaborator environment (everything succeeds simply). -/
def env0 : DruidEnv where
  extractionFn := fun _ => .ok none
  druidExpression := fun _ => some "druidExpr"
  expressionTypeToOutputType := fun _ => none
  intelligentInflater := fun _ _ => none
  maxBucketNumber := fun _ => 1000000
  filterToDruid := fun _ => .ok ("intervals", none)
  makeAggregations := fun _ applies => .ok (applies.map (fun a => a.name), [])
  havingToFilter := fun _ _ => .ok "havingSpec"

/-- A concrete SQL dialect environment. -/
def senv0 : SqlEnv where
  escapeName := fun s => "`" ++ s ++ "`"
  emptyGroupBy := "GROUP BY ()"
  exprSQL := fun _ => "sqlOfExpr"
  applySQL := fun a => a.name
  sortSQL := fun s => "ORDER BY " ++ s.refName.getD "?"
  limitSQL := fun n => "LIMIT " ++ toString n
  splitSelectSQL := fun sp => sp.map Prod.fst
  splitShortGroupBySQL := fun sp => sp.map (fun _ => "1")
  splitGroupBySQL := fun sp => sp.map Prod.fst
  simpleInflaterByType := fun _ _ => none
  intelligentInflater := fun _ _ => none

/-- A split-mode external over a plain string column. -/
def eW1 : ExternalV :=
  { mode := .split,
    split := some [("lbl", .ref "page" (some .STRING))],
    applies := some [],
    rawAttributes := [{ name := "page", type := some .STRING }] }

/-- A total-mode external whose single apply is `max($__time)`. -/
def eW2 : ExternalV :=
  { mode := .total,
    applies := some [⟨"maxTime", .max_ Expr.underscore (.ref "__time" (some .TIME))⟩] }

/-- A re-split aggregate `max( split-by-a .apply(x, count()) )`. -/
def resplitAggA : Expr :=
  .max_ (.apply (.split (.ref "data" (some .DATASET)) [("k", .ref "a" (some .STRING))])
          "x" (.count Expr.underscore))
    (.ref "x" none)

/-- A re-split aggregate over a different inner split (key `b`). -/
def resplitAggB : Expr :=
  .max_ (.apply (.split (.ref "data" (some .DATASET)) [("k", .ref "b" (some .STRING))])
          "y" (.count Expr.underscore))
    (.ref "y" none)

/--
Applies containing a custom aggregate ahead of two re-split aggregates
with different inner splits.
-/
def eC3 : ExternalV :=
  { mode := .total,
    applies := some
      [⟨"c", .customAggregate Expr.underscore "mySum"⟩,
       ⟨"x", resplitAggA⟩,
       ⟨"y", resplitAggB⟩] }

/-- Two re-split aggregates with different inner splits, no custom aggregate. -/
def eW3 : ExternalV :=
  { mode := .total,
    applies := some [⟨"x", resplitAggA⟩, ⟨"y", resplitAggB⟩] }

/-- A total-mode external with one re-split aggregate (a well-formed plan). -/
def eC4 : ExternalV :=
  { mode := .total,
    applies := some [⟨"x", resplitAggA⟩],
    rawAttributes := [{ name := "a", type := some .STRING }] }

/-- A split-mode external over a SET/STRING column. -/
def eC5 : ExternalV :=
  { mode := .split,
    rawAttributes := [{ name := "tags", type := some (.SET (.STRING)) }] }

/-- The SET/STRING split-key expression of `eC5`. -/
def exC5 : Expr := .ref "tags" (some (.SET (.STRING)))

/-- A having filter that is an `in`-comparison of the label with a literal set. -/
def havC5 : Expr :=
  .in_ (.ref "lbl" none) (.literal (.set .STRING [.str "a", .str "b"]))

/-- A having filter that is an `is`-comparison of the label with a literal set. -/
def havW5 : Expr :=
  .is_ (.ref "lbl" none) (.literal (.set .STRING [.str "a", .str "b"]))

/-- A segmentMetadata response whose `__time` column has no min/max range. -/
def segC6 : List SegRes0 :=
  [{ columns := some [("__time", { typeName := "LONG" })] }]

/-- An external with a normal column and an unsplitable metric column. -/
def eC7 : ExternalV :=
  { mode := .split,
    rawAttributes :=
      [{ name := "page", type := some .STRING },
       { name := "m", type := some .NUMBER, unsplitable := true }] }

/-- A two-reference split key touching the unsplitable metric of `eC7`. -/
def exC7 : Expr := .fallback (.ref "page" (some .STRING)) (.ref "m" (some .NUMBER))

/-- A bare reference to the unsplitable metric of `eC7`. -/
def exW7 : Expr := .ref "m" (some .NUMBER)

/-- A split-mode SQL external with a withQuery, filter, having, sort and limit. -/
def eW9 : ExternalV :=
  { mode := .split,
    split := some [("lbl", .ref "page" (some .STRING))],
    applies := some [⟨"cnt", .count Expr.underscore⟩],
    filter := .is_ (.ref "country" (some .STRING)) (.literal (.str "UK")),
    havingFilter := .greaterThan (.ref "cnt" (some .NUMBER)) (.literal (.num 10)),
    sort := some ⟨.ref "cnt" (some .NUMBER), .descending⟩,
    limit := some 50,
    withQuery := some "SELECT * FROM base",
    rawAttributes := [{ name := "page", type := some .STRING }] }

/-- A raw-mode external sorted ascending on its time attribute. -/
def eW10 : ExternalV := { mode := .raw }

/-- An ascending sort on `__time`. -/
def sortW10 : SortE := ⟨.ref "__time" (some .TIME), .ascending⟩

/-! ### Lemmas on the re-split walk -/

theorem seedAfter_nil (g : Option Expr) : seedAfter g [] = g := by
  cases g <;> rfl

theorem seedCompat_nil (g : Option Expr) : seedCompat g [] = true := by
  cases g <;> rfl

theorem seedCompat_append (g : Option Expr) (l1 l2 : List Expr) :
    seedCompat g (l1 ++ l2) =
      (seedCompat g l1 && seedCompat (seedAfter g l1) l2) := by
  cases g with
  | some g0 => simp [seedCompat, seedAfter, List.all_append]
  | none =>
    cases l1 with
    | nil => simp [seedCompat, seedAfter]
    | cons s0 rest => simp [seedCompat, seedAfter, List.all_append]

theorem seedAfter_append (g : Option Expr) (l1 l2 : List Expr) :
    seedAfter g (l1 ++ l2) = seedAfter (seedAfter g l1) l2 := by
  cases g <;> cases l1 <;> simp [seedAfter]

theorem WalkSpec.pureStage {γ : Type}
    {w : Nat → RState → Except String (γ × Nat × RState)}
    (hw : ∀ c st, ∃ y c2, w c st = .ok (y, c2, st)) : WalkSpec w [] := by
  intro c st
  constructor
  · intro _
    obtain ⟨y, c2, h⟩ := hw c st
    exact ⟨(y, c2, st), h, (seedAfter_nil _).symm⟩
  · intro hc
    rw [seedCompat_nil] at hc
    exact Bool.noConfusion hc

theorem WalkSpec.mapStage {α γ : Type}
    {w1 : Nat → RState → Except String (α × Nat × RState)}
    {w : Nat → RState → Except String (γ × Nat × RState)}
    {col1 : List Expr} (f : α → γ)
    (h1 : WalkSpec w1 col1)
    (hErr1 : ∀ c st m, w1 c st = .error m → w c st = .error m)
    (hOk1 : ∀ c st a2 c1 s1, w1 c st = .ok (a2, c1, s1) → w c st = .ok (f a2, c1, s1)) :
    WalkSpec w col1 := by
  intro c st
  constructor
  · intro hc
    obtain ⟨⟨a2, c1, s1⟩, hok1, hg1⟩ := (h1 c st).1 hc
    exact ⟨(f a2, c1, s1), hOk1 c st a2 c1 s1 hok1, hg1⟩
  · intro hc
    exact hErr1 c st _ ((h1 c st).2 hc)

theorem WalkSpec.seqStage {α β γ : Type}
    {w1 : Nat → RState → Except String (α × Nat × RState)}
    {w2 : Nat → RState → Except String (β × Nat × RState)}
    {w : Nat → RState → Except String (γ × Nat × RState)}
    {col1 col2 : List Expr} (f : α → β → γ)
    (h1 : WalkSpec w1 col1) (h2 : WalkSpec w2 col2)
    (hErr1 : ∀ c st m, w1 c st = .error m → w c st = .error m)
    (hOk1 : ∀ c st a2 c1 s1, w1 c st = .ok (a2, c1, s1) →
      (∀ m, w2 c1 s1 = .error m → w c st = .error m) ∧
      (∀ b2 c2 s2, w2 c1 s1 = .ok (b2, c2, s2) → w c st = .ok (f a2 b2, c2, s2))) :
    WalkSpec w (col1 ++ col2) := by
  intro c st
  constructor
  · intro hc
    rw [seedCompat_append, Bool.and_eq_true] at hc
    obtain ⟨hc1, hc2⟩ := hc
    obtain ⟨⟨a2, c1, s1⟩, hok1, hg1⟩ := (h1 c st).1 hc1
    obtain ⟨⟨b2, c2, s2⟩, hok2, hg2⟩ := (h2 c1 s1).1 (by rw [hg1]; exact hc2)
    refine ⟨(f a2 b2, c2, s2), (hOk1 c st a2 c1 s1 hok1).2 b2 c2 s2 hok2, ?_⟩
    show s2.globalResplitSplit = _
    rw [hg2, hg1, seedAfter_append]
  · intro hc
    rw [seedCompat_append] at hc
    by_cases hc1 : seedCompat st.globalResplitSplit col1 = true
    · obtain ⟨⟨a2, c1, s1⟩, hok1, hg1⟩ := (h1 c st).1 hc1
      have hc2 : seedCompat s1.globalResplitSplit col2 = false := by
        rw [hg1]
        rw [hc1] at hc
        simpa using hc
      exact (hOk1 c st a2 c1 s1 hok1).1 _ ((h2 c1 s1).2 hc2)
    · have hc1f : seedCompat st.globalResplitSplit col1 = false := by
        simpa using hc1
      exact hErr1 c st _ ((h1 c st).2 hc1f)

theorem anyNode_operand {ex op : Expr} {p : Expr → Bool}
    (h : ex.operand? = some op) (hop : op.anyNode p = true) :
    ex.anyNode p = true := by
  induction ex using Expr.operand?.induct <;>
    simp_all [Expr.operand?, Expr.anyNode]

theorem parseResplitAgg_containsSplit (ex : Expr) (r : ParsedResplitAgg)
    (h : parseResplitAgg ex = some r) : ex.containsSplit = true := by
  unfold parseResplitAgg at h
  split at h
  · exact absurd h (by simp)
  · split at h
    all_goals try exact Option.noConfusion h
    rename_i applyOperand applyName applyExpr hop
    split at h
    all_goals try exact Option.noConfusion h
    exact anyNode_operand hop
      (by simp [Expr.anyNode, Expr.isOp, Expr.opName])

theorem collectResplits_containsSplit : ∀ ex : Expr,
    collectResplits ex ≠ [] → Expr.containsSplit ex = true := by
  refine collectResplits.induct
    (fun ex => collectResplits ex ≠ [] → Expr.containsSplit ex = true)
    (fun ss => collectResplitsPairs ss ≠ [] →
      anyNodePairs (fun x => x.isOp "split") ss = true)
    ?_ ?_ ?_ ?_ ?_ ?_ ?_ ?_ ?_ ?_ ?_ ?_ ?_ ?_ ?_ ?_ ?_ ?_ ?_ ?_ ?_ ?_ ?_ ?_ ?_ ?_ ?_
  · intro n t h
    exact absurd rfl h
  · intro v h
    exact absurd rfl h
  · intro a b iha ihb h
    by_cases hca : collectResplits a = []
    · have hcb : collectResplits b ≠ [] := fun hb => h (by simp [collectResplits, hca, hb])
      have hb2 := ihb hcb
      show (_ || Expr.containsSplit a || Expr.containsSplit b) = true
      simp [hb2]
    · have ha2 := iha hca
      show (_ || Expr.containsSplit a || Expr.containsSplit b) = true
      simp [ha2]
  · intro a b iha ihb h
    by_cases hca : collectResplits a = []
    · have hcb : collectResplits b ≠ [] := fun hb => h (by simp [collectResplits, hca, hb])
      have hb2 := ihb hcb
      show (_ || Expr.containsSplit a || Expr.containsSplit b) = true
      simp [hb2]
    · have ha2 := iha hca
      show (_ || Expr.containsSplit a || Expr.containsSplit b) = true
      simp [ha2]
  · intro a b iha ihb h
    by_cases hca : collectResplits a = []
    · have hcb : collectResplits b ≠ [] := fun hb => h (by simp [collectResplits, hca, hb])
      have hb2 := ihb hcb
      show (_ || Expr.containsSplit a || Expr.containsSplit b) = true
      simp [hb2]
    · have ha2 := iha hca
      show (_ || Expr.containsSplit a || Expr.containsSplit b) = true
      simp [ha2]
  · intro a b iha ihb h
    by_cases hca : collectResplits a = []
    · have hcb : collectResplits b ≠ [] := fun hb => h (by simp [collectResplits, hca, hb])
      have hb2 := ihb hcb
      show (_ || Expr.containsSplit a || Expr.containsSplit b) = true
      simp [hb2]
    · have ha2 := iha hca
      show (_ || Expr.containsSplit a || Expr.containsSplit b) = true
      simp [ha2]
  · intro a b iha ihb h
    by_cases hca : collectResplits a = []
    · have hcb : collectResplits b ≠ [] := fun hb => h (by simp [collectResplits, hca, hb])
      have hb2 := ihb hcb
      show (_ || Expr.containsSplit a || Expr.containsSplit b) = true
      simp [hb2]
    · have ha2 := iha hca
      show (_ || Expr.containsSplit a || Expr.containsSplit b) = true
      simp [ha2]
  · intro a b iha ihb h
    by_cases hca : collectResplits a = []
    · have hcb : collectResplits b ≠ [] := fun hb => h (by simp [collectResplits, hca, hb])
      have hb2 := ihb hcb
      show (_ || Expr.containsSplit a || Expr.containsSplit b) = true
      simp [hb2]
    · have ha2 := iha hca
      show (_ || Expr.containsSplit a || Expr.containsSplit b) = true
      simp [ha2]
  · intro a b iha ihb h
    by_cases hca : collectResplits a = []
    · have hcb : collectResplits b ≠ [] := fun hb => h (by simp [collectResplits, hca, hb])
      have hb2 := ihb hcb
      show (_ || Expr.containsSplit a || Expr.containsSplit b) = true
      simp [hb2]
    · have ha2 := iha hca
      show (_ || Expr.containsSplit a || Expr.containsSplit b) = true
      simp [ha2]
  · intro a rgx iha h
    have ha2 := iha h
    show ((a.match_ rgx).isOp "split" || Expr.containsSplit a) = true
    simp [ha2]
  · intro a iha h
    have ha2 := iha h
    show ((Expr.cardinality a).isOp "split" || Expr.containsSplit a) = true
    simp [ha2]
  · intro a d z iha h
    have ha2 := iha h
    show ((a.timeBucket d z).isOp "split" || Expr.containsSplit a) = true
    simp [ha2]
  · intro a d z iha h
    have ha2 := iha h
    show ((a.timeFloor d z).isOp "split" || Expr.containsSplit a) = true
    simp [ha2]
  · intro a pt z iha h
    have ha2 := iha h
    show ((a.timePart pt z).isOp "split" || Expr.containsSplit a) = true
    simp [ha2]
  · intro a sz o iha h
    have ha2 := iha h
    show ((a.numberBucket sz o).isOp "split" || Expr.containsSplit a) = true
    simp [ha2]
  · -- count
    intro a h
    cases hp : parseResplitAgg (Expr.count a) with
    | none => exact absurd (by simp [collectResplits, collectAggResplit, hp]) h
    | some r => exact parseResplitAgg_containsSplit _ r hp
  · -- sum
    intro a b h
    cases hp : parseResplitAgg (Expr.sum a b) with
    | none => exact absurd (by simp [collectResplits, collectAggResplit, hp]) h
    | some r => exact parseResplitAgg_containsSplit _ r hp
  · -- min
    intro a b h
    cases hp : parseResplitAgg (Expr.min_ a b) with
    | none => exact absurd (by simp [collectResplits, collectAggResplit, hp]) h
    | some r => exact parseResplitAgg_containsSplit _ r hp
  · -- max
    intro a b h
    cases hp : parseResplitAgg (Expr.max_ a b) with
    | none => exact absurd (by simp [collectResplits, collectAggResplit, hp]) h
    | some r => exact parseResplitAgg_containsSplit _ r hp
  · -- countDistinct
    intro a b h
    cases hp : parseResplitAgg (Expr.countDistinct a b) with
    | none => exact absurd (by simp [collectResplits, collectAggResplit, hp]) h
    | some r => exact parseResplitAgg_containsSplit _ r hp
  · -- customAggregate
    intro a cu h
    cases hp : parseResplitAgg (Expr.customAggregate a cu) with
    | none => exact absurd (by simp [collectResplits, collectAggResplit, hp]) h
    | some r => exact parseResplitAgg_containsSplit _ r hp
  · -- apply
    intro a n b iha ihb h
    by_cases hca : collectResplits a = []
    · have hcb : collectResplits b ≠ [] := fun hb => h (by simp [collectResplits, hca, hb])
      have hb2 := ihb hcb
      show (_ || Expr.containsSplit a || Expr.containsSplit b) = true
      simp [hb2]
    · have ha2 := iha hca
      show (_ || Expr.containsSplit a || Expr.containsSplit b) = true
      simp [ha2]
  · -- split
    intro a ss iha ihss h
    by_cases hca : collectResplits a = []
    · have hcb : collectResplitsPairs ss ≠ [] :=
        fun hb => h (by simp [collectResplits, hca, hb])
      have hb2 := ihss hcb
      show ((a.split ss).isOp "split" || Expr.containsSplit a ||
        anyNodePairs (fun x => x.isOp "split") ss) = true
      simp [hb2]
    · have ha2 := iha hca
      show ((a.split ss).isOp "split" || Expr.containsSplit a ||
        anyNodePairs (fun x => x.isOp "split") ss) = true
      simp [ha2]
  · -- withOpts, aggregate
    intro o a hagg h
    cases hp : parseResplitAgg (Expr.withOpts o a) with
    | none => exact absurd (by simp [collectResplits, hagg, collectAggResplit, hp]) h
    | some r => exact parseResplitAgg_containsSplit _ r hp
  · -- withOpts, not an aggregate
    intro o a hnagg iha h
    have ha2 := iha (fun hb => h (by simp [collectResplits, hnagg, hb]))
    show ((Expr.withOpts o a).isOp "split" || Expr.containsSplit a) = true
    simp [ha2]
  · -- pairs, nil
    intro h
    exact absurd rfl h
  · -- pairs, cons
    intro nm x r ihx ihr h
    by_cases hcx : collectResplits x = []
    · have hcr : collectResplitsPairs r ≠ [] :=
        fun hb => h (by simp [collectResplitsPairs, hcx, hb])
      have h2 := ihr hcr
      show (Expr.containsSplit x || anyNodePairs (fun e => e.isOp "split") r) = true
      simp [h2]
    · have h2 := ihx hcx
      show (Expr.containsSplit x || anyNodePairs (fun e => e.isOp "split") r) = true
      simp [h2]

theorem handleResplitAgg_spec (i : Nat) (ex : Expr) (hok : aggKindOk ex = true) :
    WalkSpec (fun c st => handleResplitAgg i c st ex) (collectAggResplit ex) := by
  intro c st
  cases hp : parseResplitAgg ex with
  | none =>
    have hcol : collectAggResplit ex = [] := by simp [collectAggResplit, hp]
    rw [hcol]
    constructor
    · intro _
      rw [seedAfter_nil]
      have hok2 := hok
      unfold aggKindOk at hok2
      rw [hp] at hok2
      simp only [Option.isSome_none, Bool.false_eq_true, if_false] at hok2
      cases ex
      all_goals simp at hok2
      all_goals (simp only [handleResplitAgg, hp]; exact ⟨_, rfl, rfl⟩)
    · intro hc
      rw [seedCompat_nil] at hc
      exact Bool.noConfusion hc
  | some r =>
    have hcol : collectAggResplit ex = [r.resplitSplit] := by simp [collectAggResplit, hp]
    rw [hcol]
    cases hg : st.globalResplitSplit with
    | none =>
      constructor
      · intro _
        cases hf : (r.resplitApply.applyExpression).findFilterSub with
        | some fe =>
          simp only [handleResplitAgg, hp, hg, hf]
          exact ⟨_, rfl, rfl⟩
        | none =>
          simp only [handleResplitAgg, hp, hg, hf]
          exact ⟨_, rfl, rfl⟩
      · intro hc
        simp [seedCompat] at hc
    | some g0 =>
      by_cases hb : Expr.beq g0 r.resplitSplit = true
      · constructor
        · intro _
          cases hf : (r.resplitApply.applyExpression).findFilterSub with
          | some fe =>
            simp only [handleResplitAgg, hp, hg, hb, Bool.not_true, Bool.false_eq_true,
              if_false, hf]
            exact ⟨_, rfl, rfl⟩
          | none =>
            simp only [handleResplitAgg, hp, hg, hb, Bool.not_true, Bool.false_eq_true,
              if_false, hf]
            exact ⟨_, rfl, rfl⟩
        · intro hc
          simp [seedCompat, hb] at hc
      · have hbf : Expr.beq g0 r.resplitSplit = false := by simpa using hb
        constructor
        · intro hc
          simp [seedCompat, hbf] at hc
        · intro _
          simp only [handleResplitAgg, hp, hg, hbf, Bool.not_false, if_true]

theorem substResplit_spec (i : Nat) : ∀ ex : Expr,
    walkAggsOk ex = true → WalkSpec (substResplit i ex) (collectResplits ex) := by
  refine collectResplits.induct
    (fun ex => walkAggsOk ex = true → WalkSpec (substResplit i ex) (collectResplits ex))
    (fun ss => walkAggsOkPairs ss = true →
      WalkSpec (substResplitPairs i ss) (collectResplitsPairs ss))
    ?_ ?_ ?_ ?_ ?_ ?_ ?_ ?_ ?_ ?_ ?_ ?_ ?_ ?_ ?_ ?_ ?_ ?_ ?_ ?_ ?_ ?_ ?_ ?_ ?_ ?_ ?_
  · intro n t _
    exact WalkSpec.pureStage (fun c st => ⟨.ref n t, c, rfl⟩)
  · intro v _
    exact WalkSpec.pureStage (fun c st => ⟨.literal v, c, rfl⟩)
  · intro a b iha ihb hw
    have hw2 : (walkAggsOk a && walkAggsOk b) = true := hw
    rw [Bool.and_eq_true] at hw2
    refine WalkSpec.seqStage Expr.and_ (iha hw2.1) (ihb hw2.2) ?_ ?_
    · intro c st m hx
      simp only [substResplit, hx]
    · intro c st a2 c1 s1 hx
      constructor
      · intro m hy
        simp only [substResplit, hx, hy]
      · intro b2 c2 s2 hy
        simp only [substResplit, hx, hy]
  · intro a b iha ihb hw
    have hw2 : (walkAggsOk a && walkAggsOk b) = true := hw
    rw [Bool.and_eq_true] at hw2
    refine WalkSpec.seqStage Expr.is_ (iha hw2.1) (ihb hw2.2) ?_ ?_
    · intro c st m hx
      simp only [substResplit, hx]
    · intro c st a2 c1 s1 hx
      constructor
      · intro m hy
        simp only [substResplit, hx, hy]
      · intro b2 c2 s2 hy
        simp only [substResplit, hx, hy]
  · intro a b iha ihb hw
    have hw2 : (walkAggsOk a && walkAggsOk b) = true := hw
    rw [Bool.and_eq_true] at hw2
    refine WalkSpec.seqStage Expr.in_ (iha hw2.1) (ihb hw2.2) ?_ ?_
    · intro c st m hx
      simp only [substResplit, hx]
    · intro c st a2 c1 s1 hx
      constructor
      · intro m hy
        simp only [substResplit, hx, hy]
      · intro b2 c2 s2 hy
        simp only [substResplit, hx, hy]
  · intro a b iha ihb hw
    have hw2 : (walkAggsOk a && walkAggsOk b) = true := hw
    rw [Bool.and_eq_true] at hw2
    refine WalkSpec.seqStage Expr.greaterThan (iha hw2.1) (ihb hw2.2) ?_ ?_
    · intro c st m hx
      simp only [substResplit, hx]
    · intro c st a2 c1 s1 hx
      constructor
      · intro m hy
        simp only [substResplit, hx, hy]
      · intro b2 c2 s2 hy
        simp only [substResplit, hx, hy]
  · intro a b iha ihb hw
    have hw2 : (walkAggsOk a && walkAggsOk b) = true := hw
    rw [Bool.and_eq_true] at hw2
    refine WalkSpec.seqStage Expr.fallback (iha hw2.1) (ihb hw2.2) ?_ ?_
    · intro c st m hx
      simp only [substResplit, hx]
    · intro c st a2 c1 s1 hx
      constructor
      · intro m hy
        simp only [substResplit, hx, hy]
      · intro b2 c2 s2 hy
        simp only [substResplit, hx, hy]
  · intro a b iha ihb hw
    have hw2 : (walkAggsOk a && walkAggsOk b) = true := hw
    rw [Bool.and_eq_true] at hw2
    refine WalkSpec.seqStage Expr.then_ (iha hw2.1) (ihb hw2.2) ?_ ?_
    · intro c st m hx
      simp only [substResplit, hx]
    · intro c st a2 c1 s1 hx
      constructor
      · intro m hy
        simp only [substResplit, hx, hy]
      · intro b2 c2 s2 hy
        simp only [substResplit, hx, hy]
  · intro a b iha ihb hw
    have hw2 : (walkAggsOk a && walkAggsOk b) = true := hw
    rw [Bool.and_eq_true] at hw2
    refine WalkSpec.seqStage Expr.filter (iha hw2.1) (ihb hw2.2) ?_ ?_
    · intro c st m hx
      simp only [substResplit, hx]
    · intro c st a2 c1 s1 hx
      constructor
      · intro m hy
        simp only [substResplit, hx, hy]
      · intro b2 c2 s2 hy
        simp only [substResplit, hx, hy]
  · intro a rgx iha hw
    refine WalkSpec.mapStage (fun a2 => Expr.match_ a2 rgx) (iha hw) ?_ ?_
    · intro c st m hx
      simp only [substResplit, hx]
    · intro c st a2 c1 s1 hx
      simp only [substResplit, hx]
  · intro a iha hw
    refine WalkSpec.mapStage Expr.cardinality (iha hw) ?_ ?_
    · intro c st m hx
      simp only [substResplit, hx]
    · intro c st a2 c1 s1 hx
      simp only [substResplit, hx]
  · intro a d z iha hw
    refine WalkSpec.mapStage (fun a2 => Expr.timeBucket a2 d z) (iha hw) ?_ ?_
    · intro c st m hx
      simp only [substResplit, hx]
    · intro c st a2 c1 s1 hx
      simp only [substResplit, hx]
  · intro a d z iha hw
    refine WalkSpec.mapStage (fun a2 => Expr.timeFloor a2 d z) (iha hw) ?_ ?_
    · intro c st m hx
      simp only [substResplit, hx]
    · intro c st a2 c1 s1 hx
      simp only [substResplit, hx]
  · intro a pt z iha hw
    refine WalkSpec.mapStage (fun a2 => Expr.timePart a2 pt z) (iha hw) ?_ ?_
    · intro c st m hx
      simp only [substResplit, hx]
    · intro c st a2 c1 s1 hx
      simp only [substResplit, hx]
  · intro a sz o iha hw
    refine WalkSpec.mapStage (fun a2 => Expr.numberBucket a2 sz o) (iha hw) ?_ ?_
    · intro c st m hx
      simp only [substResplit, hx]
    · intro c st a2 c1 s1 hx
      simp only [substResplit, hx]
  · intro a _
    exact handleResplitAgg_spec i (Expr.count a) (by unfold aggKindOk; split <;> rfl)
  · intro a b _
    exact handleResplitAgg_spec i (Expr.sum a b) (by unfold aggKindOk; split <;> rfl)
  · intro a b _
    exact handleResplitAgg_spec i (Expr.min_ a b) (by unfold aggKindOk; split <;> rfl)
  · intro a b _
    exact handleResplitAgg_spec i (Expr.max_ a b) (by unfold aggKindOk; split <;> rfl)
  · intro a b _
    exact handleResplitAgg_spec i (Expr.countDistinct a b) (by unfold aggKindOk; split <;> rfl)
  · intro a cu hw
    refine handleResplitAgg_spec i (Expr.customAggregate a cu) ?_
    have hw2 : (parseResplitAgg (Expr.customAggregate a cu)).isSome = true := hw
    unfold aggKindOk
    rw [hw2]
    rfl
  · intro a n b iha ihb hw
    have hw2 : (walkAggsOk a && walkAggsOk b) = true := hw
    rw [Bool.and_eq_true] at hw2
    refine WalkSpec.seqStage (fun a2 b2 => Expr.apply a2 n b2) (iha hw2.1) (ihb hw2.2) ?_ ?_
    · intro c st m hx
      simp only [substResplit, hx]
    · intro c st a2 c1 s1 hx
      constructor
      · intro m hy
        simp only [substResplit, hx, hy]
      · intro b2 c2 s2 hy
        simp only [substResplit, hx, hy]
  · intro a ss iha ihss hw
    have hw2 : (walkAggsOk a && walkAggsOkPairs ss) = true := hw
    rw [Bool.and_eq_true] at hw2
    refine WalkSpec.seqStage (fun a2 ss2 => Expr.split a2 ss2) (iha hw2.1) (ihss hw2.2) ?_ ?_
    · intro c st m hx
      simp only [substResplit, hx]
    · intro c st a2 c1 s1 hx
      constructor
      · intro m hy
        simp only [substResplit, hx, hy]
      · intro b2 c2 s2 hy
        simp only [substResplit, hx, hy]
  · intro o a hagg hw
    have hwa : aggKindOk (Expr.withOpts o a) = true := by
      have h0 : walkAggsOk (Expr.withOpts o a) =
          if (Expr.withOpts o a).isAggregate then aggKindOk (Expr.withOpts o a)
          else walkAggsOk a := rfl
      rw [h0, if_pos hagg] at hw
      exact hw
    have hs := handleResplitAgg_spec i (Expr.withOpts o a) hwa
    have hcol : collectResplits (Expr.withOpts o a) =
        collectAggResplit (Expr.withOpts o a) := by
      simp [collectResplits, hagg]
    have hrun : ∀ c st, substResplit i (Expr.withOpts o a) c st =
        handleResplitAgg i c st (Expr.withOpts o a) := by
      intro c st
      show (if (Expr.withOpts o a).isAggregate then _ else _) = _
      rw [if_pos hagg]
    intro c st
    rw [hcol, hrun c st]
    exact hs c st
  · intro o a hnagg iha hw
    have hb : (Expr.withOpts o a).isAggregate = false := by simpa using hnagg
    have hwa : walkAggsOk a = true := by
      have h0 : walkAggsOk (Expr.withOpts o a) =
          if (Expr.withOpts o a).isAggregate then aggKindOk (Expr.withOpts o a)
          else walkAggsOk a := rfl
      rw [h0, hb] at hw
      simpa using hw
    have hcol : collectResplits (Expr.withOpts o a) = collectResplits a := by
      simp [collectResplits, hb]
    have hmap : WalkSpec (substResplit i (Expr.withOpts o a)) (collectResplits a) := by
      refine WalkSpec.mapStage (Expr.withOpts o) (iha hwa) ?_ ?_
      · intro c st m hx
        simp only [substResplit, hb, Bool.false_eq_true, if_false, hx]
      · intro c st a2 c1 s1 hx
        simp only [substResplit, hb, Bool.false_eq_true, if_false, hx]
    rwa [← hcol] at hmap
  · intro _
    exact WalkSpec.pureStage (fun c st => ⟨[], c, rfl⟩)
  · intro nm x r ihx ihr hw
    have hw2 : (walkAggsOk x && walkAggsOkPairs r) = true := hw
    rw [Bool.and_eq_true] at hw2
    refine WalkSpec.seqStage (fun x2 r2 => (nm, x2) :: r2) (ihx hw2.1) (ihr hw2.2) ?_ ?_
    · intro c st m hx
      simp only [substResplitPairs, hx]
    · intro c st a2 c1 s1 hx
      constructor
      · intro m hy
        simp only [substResplitPairs, hx, hy]
      · intro b2 c2 s2 hy
        simp only [substResplitPairs, hx, hy]

theorem splitUpApplies_spec : ∀ (applies : List ApplyE) (i : Nat) (st : RState),
    (∀ a ∈ applies, walkAggsOk a.expression = true) →
    (seedCompat st.globalResplitSplit
        (applies.flatMap (fun a => collectResplits a.expression)) = true →
      ∃ y, splitUpApplies i applies st = .ok y ∧
        y.2.globalResplitSplit = seedAfter st.globalResplitSplit
          (applies.flatMap (fun a => collectResplits a.expression))) ∧
    (seedCompat st.globalResplitSplit
        (applies.flatMap (fun a => collectResplits a.expression)) = false →
      splitUpApplies i applies st = .error resplitMismatchMsg) := by
  intro applies
  induction applies with
  | nil =>
    intro i st _
    constructor
    · intro _
      exact ⟨([], st), rfl, by rw [List.flatMap_nil, seedAfter_nil]⟩
    · intro hc
      rw [List.flatMap_nil, seedCompat_nil] at hc
      exact Bool.noConfusion hc
  | cons a rest ih =>
    intro i st hall
    have hwa : walkAggsOk a.expression = true := hall a (List.mem_cons_self a rest)
    have hrest : ∀ b ∈ rest, walkAggsOk b.expression = true :=
      fun b hb => hall b (List.mem_cons_of_mem _ hb)
    have hspec := substResplit_spec i a.expression hwa
    constructor
    · intro hc
      rw [List.flatMap_cons, seedCompat_append, Bool.and_eq_true] at hc
      obtain ⟨hc1, hc2⟩ := hc
      obtain ⟨⟨ex2, c2, st2⟩, hok, hg⟩ := (hspec 0 st).1 hc1
      obtain ⟨⟨rest2, st3⟩, hok2, hg2⟩ :=
        (ih (i + 1) st2 hrest).1 (by rw [hg]; exact hc2)
      refine ⟨({ a with expression := ex2 } :: rest2, st3), ?_, ?_⟩
      · show (match substResplit i a.expression 0 st with
              | Except.error m => Except.error m
              | Except.ok (ex2, _, st2) =>
                match splitUpApplies (i + 1) rest st2 with
                | Except.error m => Except.error m
                | Except.ok (rest2, st3) =>
                  Except.ok ({ a with expression := ex2 } :: rest2, st3)) = _
        rw [hok]
        show (match splitUpApplies (i + 1) rest st2 with
              | Except.error m => Except.error m
              | Except.ok (rest2, st3) =>
                Except.ok ({ a with expression := ex2 } :: rest2, st3)) = _
        rw [hok2]
      · show st3.globalResplitSplit = _
        rw [hg2, hg, List.flatMap_cons, seedAfter_append]
    · intro hc
      rw [List.flatMap_cons, seedCompat_append] at hc
      by_cases hc1 : seedCompat st.globalResplitSplit (collectResplits a.expression) = true
      · obtain ⟨⟨ex2, c2, st2⟩, hok, hg⟩ := (hspec 0 st).1 hc1
        have hc2 : seedCompat st2.globalResplitSplit
            (rest.flatMap fun b => collectResplits b.expression) = false := by
          rw [hg]
          rw [hc1] at hc
          simpa using hc
        have herr := (ih (i + 1) st2 hrest).2 hc2
        show (match substResplit i a.expression 0 st with
              | Except.error m => Except.error m
              | Except.ok (ex2, _, st2) =>
                match splitUpApplies (i + 1) rest st2 with
                | Except.error m => Except.error m
                | Except.ok (rest2, st3) =>
                  Except.ok ({ a with expression := ex2 } :: rest2, st3)) = _
        rw [hok]
        show (match splitUpApplies (i + 1) rest st2 with
              | Except.error m => Except.error m
              | Except.ok (rest2, st3) =>
                Except.ok ({ a with expression := ex2 } :: rest2, st3)) = _
        rw [herr]
      · have hc1f : seedCompat st.globalResplitSplit (collectResplits a.expression) = false := by
          simpa using hc1
        have herr := (hspec 0 st).2 hc1f
        show (match substResplit i a.expression 0 st with
              | Except.error m => Except.error m
              | Except.ok (ex2, _, st2) =>
                match splitUpApplies (i + 1) rest st2 with
                | Except.error m => Except.error m
                | Except.ok (rest2, st3) =>
                  Except.ok ({ a with expression := ex2 } :: rest2, st3)) = _
        rw [herr]

theorem DruidQuery.dataSource_setDataSource (q : DruidQuery) (d : DataSource) :
    (q.setDataSource d).dataSource = d := by
  cases q
  rfl

/-! ## Claim theorems -/

/--
**C10**: in raw mode, `canHandleSort` returns true exactly when the sort
references the time attribute and is ascending; in every non-raw mode it
returns true for all sorts.
-/
theorem c10_canHandleSort (e : ExternalV) (sort : SortE) :
    (e.mode = .raw →
      (e.canHandleSort sort = true ↔
        (sort.refName = some e.timeAttribute ∧ sort.direction = .ascending))) ∧
    (e.mode ≠ .raw → e.canHandleSort sort = true) := by
  unfold ExternalV.canHandleSort
  constructor
  · intro h
    by_cases hr : sort.refName = some e.timeAttribute <;>
      simp [h, hr, bne_iff_ne]
  · intro h
    cases hm : e.mode <;> simp_all

/-- Witness for C10 at a concrete raw-mode external and ascending time sort. -/
theorem c10_witness : eW10.mode = .raw ∧ eW10.canHandleSort sortW10 = true :=
  ⟨rfl, ((c10_canHandleSort eW10 sortW10).1 rfl).mpr ⟨rfl, rfl⟩⟩

/--
**C8**: `makeOutputName` prefixes `***` exactly to names beginning with
`__` and leaves all other names unchanged; consequently the output name of
every dimension emitted by `expressionToDimensionInflater` for a split
label is `makeOutputName label`.
-/
theorem c8_outputName_rewrite :
    (∀ name : String,
      (strStartsWith "__" name = true → makeOutputName name = "***" ++ name) ∧
      (strStartsWith "__" name = false → makeOutputName name = name)) ∧
    (∀ (env : DruidEnv) (e : ExternalV) (ex : Expr) (label : String) (di : DimensionInflater),
      expressionToDimensionInflater env e ex label = .ok di →
      di.dimension.outputNameOf = some (makeOutputName label)) := by
  constructor
  · intro name
    constructor <;> intro h <;> simp [makeOutputName, h]
  · intro env e ex label di h
    unfold expressionToDimensionInflater at h
    dsimp only at h
    repeat' split at h
    all_goals try dsimp only at h
    all_goals repeat' split at h
    all_goals first
      | (cases h; rfl)
      | (exact absurd h (by simp))

/--
**C1**: `splitToDruid` chooses its query shape exactly as the decision
table of the specification prescribes: groupBy for group-by-only or
multi-split; otherwise timeseries when there is no limit, the sort is
timestamp-compatible, the having filter is trivial and a granularity can
be derived; otherwise topN when the leftover having after push-down is
trivial, a limit or bounded bucket count exists, exactResultsOnly is off,
the sort is topN-compatible and querySelection is `any`; otherwise
groupBy.
-/
theorem c1_splitToDruid_queryType (env : DruidEnv) (e : ExternalV) (split : SplitPairs)
    (ds : DruidSplit) (h : splitToDruid env e split = .ok ds) :
    ds.queryType = splitQueryTypeSpec env e split := by
  unfold splitToDruid at h
  unfold splitQueryTypeSpec
  by_cases hg : (e.getQuerySelection == QuerySelection.groupByOnly || split.isMultiSplit) = true
  · rw [if_pos hg] at h
    rw [if_pos hg]
    split at h
    · exact absurd h (by simp)
    · cases h
      rfl
  · rw [if_neg hg] at h
    rw [if_neg hg]
    dsimp only at h
    by_cases hts : (e.limit == none &&
        isTimestampCompatibleSort e.sort split.firstSplitName &&
        Expr.beq e.havingFilter Expr.TRUE) = true
    · rw [if_pos hts] at h
      cases hgran : splitExpressionToGranularityInflater env e split.firstSplitExpression
          split.firstSplitName with
      | some gi =>
        rw [hgran] at h
        obtain ⟨g, i⟩ := gi
        cases h
        rw [if_pos (by simp [hts, hgran])]
      | none =>
        rw [hgran] at h
        rw [if_neg (by simp [hgran])]
        cases hdi : expressionToDimensionInflaterHaving env e split.firstSplitExpression
            split.firstSplitName e.havingFilter with
        | error m =>
          rw [hdi] at h
          exact absurd h (by simp)
        | ok d =>
          rw [hdi] at h
          dsimp only at h
          by_cases htn : (Expr.beq d.having Expr.TRUE &&
              (e.limit.isSome || env.maxBucketNumber split < 1000) &&
              !e.exactResultsOnly &&
              e.topNCompatibleSort &&
              (e.getQuerySelection == QuerySelection.any)) = true
          · rw [if_pos htn] at h
            cases h
            rw [if_pos (by exact htn)]
          · rw [if_neg htn] at h
            cases h
            rw [if_neg (by exact htn)]
    · rw [if_neg hts] at h
      have hfalse : (e.limit == none &&
          isTimestampCompatibleSort e.sort split.firstSplitName &&
          Expr.beq e.havingFilter Expr.TRUE) = false := by
        revert hts
        cases e.limit == none &&
            isTimestampCompatibleSort e.sort split.firstSplitName &&
            Expr.beq e.havingFilter Expr.TRUE <;> simp
      rw [if_neg (by rw [hfalse]; simp)]
      cases hdi : expressionToDimensionInflaterHaving env e split.firstSplitExpression
          split.firstSplitName e.havingFilter with
      | error m =>
        rw [hdi] at h
        exact absurd h (by simp)
      | ok d =>
        rw [hdi] at h
        dsimp only at h
        by_cases htn : (Expr.beq d.having Expr.TRUE &&
            (e.limit.isSome || env.maxBucketNumber split < 1000) &&
            !e.exactResultsOnly &&
            e.topNCompatibleSort &&
            (e.getQuerySelection == QuerySelection.any)) = true
        · rw [if_pos htn] at h
          cases h
          rw [if_pos (by exact htn)]
        · rw [if_neg htn] at h
          cases h
          rw [if_neg (by exact htn)]

/-- Witness for C1: a concrete single-key split planned as groupBy. -/
theorem c1_witness :
    ∃ ds, splitToDruid env0 eW1 [("lbl", .ref "page" (some .STRING))] = .ok ds ∧
      ds.queryType = splitQueryTypeSpec env0 eW1 [("lbl", .ref "page" (some .STRING))] := by
  refine ⟨_, rfl, ?_⟩
  exact c1_splitToDruid_queryType env0 eW1 [("lbl", .ref "page" (some .STRING))] _ rfl

/--
**C2**: for a total-mode External with a non-empty applies list all of
whose expressions are min/max of the time ref, and querySelection not
group-by-only, the planner emits a `timeBoundary` query; with exactly one
apply the `bound` field is the operator name followed by `Time` (`minTime`
or `maxTime`); with several applies no `bound` is set.
-/
theorem c2_timeBoundary (env : DruidEnv) (fuel : Nat) (e : ExternalV) (l : List ApplyE)
    (hmode : e.mode = .total)
    (hqs : e.querySelection ≠ some QuerySelection.groupByOnly)
    (happ : e.applies = some l)
    (hne : l ≠ [])
    (hall : ∀ a ∈ l, e.isMinMaxTimeExpression a.expression = true) :
    ∃ q, getQueryAndPostTransform env (fuel + 1) e = .ok q ∧
      q.query.queryType = "timeBoundary" ∧
      (∀ a, l = [a] → q.query.bound = some (a.expression.opName ++ "Time") ∧
        (q.query.bound = some "minTime" ∨ q.query.bound = some "maxTime")) ∧
      (1 < l.length → q.query.bound = none) := by
  have h1 : (e.querySelection != some QuerySelection.groupByOnly) = true := by
    simp [bne_iff_ne, hqs]
  have h2 : (e.mode == Mode.total) = true := by simp [hmode]
  have hemp : l.isEmpty = false := by
    cases l
    · exact absurd rfl hne
    · rfl
  have hallb : l.all (fun a => e.isMinMaxTimeExpression a.expression) = true :=
    List.all_eq_true.mpr hall
  have hres : getQueryAndPostTransform env (fuel + 1) e =
      getTimeBoundaryQueryAndPostTransform e := by
    unfold getQueryAndPostTransform
    simp only [h1, h2, happ, hemp, hallb, Bool.not_false, Bool.and_self, if_true,
      Bool.true_and, Bool.and_true]
  match l, hne with
  | [a], _ =>
    have htb : getTimeBoundaryQueryAndPostTransform e =
        .ok { query := .mk e.getDruidDataSource
                { queryType := "timeBoundary", context := e.context,
                  bound := some (a.expression.opName ++ "Time") },
              reqContext := { timestamp := none },
              postTransform := .timeBoundaryT (some [a]) } := by
      unfold getTimeBoundaryQueryAndPostTransform
      rw [hmode]
      simp [happ]
    refine ⟨{ query := .mk e.getDruidDataSource
                { queryType := "timeBoundary", context := e.context,
                  bound := some (a.expression.opName ++ "Time") },
              reqContext := { timestamp := none },
              postTransform := .timeBoundaryT (some [a]) },
            by rw [hres, htb], rfl, ?_, by intro h; simp at h⟩
    intro a2 ha2
    have ha : a2 = a := by
      injection ha2 with h1 _
      exact h1.symm
    subst ha
    have hm := hall a2 (by simp)
    have hop : a2.expression.opName = "min" ∨ a2.expression.opName = "max" := by
      cases hx : a2.expression <;> rw [hx] at hm <;>
        simp [ExternalV.isMinMaxTimeExpression] at hm <;> simp [Expr.opName]
    refine ⟨rfl, ?_⟩
    rcases hop with h | h
    · left
      show some (a2.expression.opName ++ "Time") = some "minTime"
      rw [h]
      rfl
    · right
      show some (a2.expression.opName ++ "Time") = some "maxTime"
      rw [h]
      rfl
  | a :: b :: rest, _ =>
    have htb : getTimeBoundaryQueryAndPostTransform e =
        .ok { query := .mk e.getDruidDataSource
                { queryType := "timeBoundary", context := e.context },
              reqContext := { timestamp := none },
              postTransform := .timeBoundaryT (some (a :: b :: rest)) } := by
      unfold getTimeBoundaryQueryAndPostTransform
      rw [hmode]
      simp [happ]
    refine ⟨{ query := .mk e.getDruidDataSource
                { queryType := "timeBoundary", context := e.context },
              reqContext := { timestamp := none },
              postTransform := .timeBoundaryT (some (a :: b :: rest)) },
            by rw [hres, htb], rfl, ?_, fun _ => rfl⟩
    intro a2 ha2
    simp at ha2

/-- Witness for C2 at a concrete total-mode external with one `max($__time)`. -/
theorem c2_witness :
    eW2.mode = .total ∧
    (∃ q, getQueryAndPostTransform env0 1 eW2 = .ok q ∧
      q.query.queryType = "timeBoundary" ∧
      q.query.bound = some "maxTime") := by
  refine ⟨rfl, ?_⟩
  obtain ⟨q, hq, hqt, hb, _⟩ :=
    c2_timeBoundary env0 0 eW2 (eW2.applies.getD []) rfl (by simp [eW2]) rfl
      (by simp [eW2]) (by intro a ha; simp [eW2] at ha; subst ha; rfl)
  refine ⟨q, hq, hqt, ?_⟩
  have := (hb _ rfl).1
  simpa using this

/-- Witness for C8: a reserved-prefixed name and a concrete emitted dimension. -/
theorem c8_witness :
    makeOutputName "__lbl" = "***" ++ "__lbl" ∧
    ∃ di, expressionToDimensionInflater env0 eW1 (.ref "page" (some .STRING)) "__lbl" = .ok di ∧
      di.dimension.outputNameOf = some (makeOutputName "__lbl") := by
  refine ⟨(c8_outputName_rewrite.1 "__lbl").1 (by decide), ?_⟩
  refine ⟨{ dimension := .full "default" "page" (makeOutputName "__lbl") none none,
            inflater := none, virtualColumn := none }, rfl, ?_⟩
  exact c8_outputName_rewrite.2 env0 eW1 (.ref "page" (some .STRING)) "__lbl" _ rfl


/--
**C3** (corrected): when the apply-splitting walk meets only supported
aggregates, re-split aggregates whose inner splits are not all equal make
`nestedGroupByIfNeeded` fail with exactly
"all resplit aggregators must have the same split", and when they all share
one split the construction phase of the rewrite succeeds, so no such error
is raised there.  As literally stated the claim is refuted by
`c3_counterexample`: a custom aggregate among the applies makes the walk
fail with the custom-aggregation error before the mismatch is ever checked.
-/
theorem c3_resplit_same_split (env : DruidEnv) (fuel : Nat) (e : ExternalV)
    (hwalk : ∀ a ∈ effectiveApplies e, walkAggsOk a.expression = true) :
    (allShareSplit (appliesResplits e) = false →
      nestedGroupByIfNeeded env fuel e = .error resplitMismatchMsg) ∧
    (allShareSplit (appliesResplits e) = true →
      exceptIsOk (nestedGroupByPlan e) = true) := by
  have hsp := splitUpApplies_spec (effectiveApplies e) 0 {} hwalk
  constructor
  · intro hfalse
    have herr := hsp.2 hfalse
    have hne : appliesResplits e ≠ [] := by
      intro h0
      rw [h0] at hfalse
      exact absurd hfalse (by decide)
    have hmem : ∃ a ∈ effectiveApplies e, collectResplits a.expression ≠ [] := by
      by_contra hno
      push_neg at hno
      apply hne
      show (effectiveApplies e).flatMap (fun a => collectResplits a.expression) = []
      have haux : ∀ (l : List ApplyE), (∀ a ∈ l, collectResplits a.expression = []) →
          l.flatMap (fun a => collectResplits a.expression) = [] := by
        intro l h
        induction l with
        | nil => rfl
        | cons a rest ih =>
          rw [List.flatMap_cons, h a (List.mem_cons_self a rest), List.nil_append]
          exact ih (fun b hb => h b (List.mem_cons_of_mem _ hb))
      exact haux _ hno
    obtain ⟨a, ha, hcol⟩ := hmem
    have hany : (effectiveApplies e).any (fun a => a.expression.containsSplit) = true :=
      List.any_eq_true.mpr ⟨a, ha, collectResplits_containsSplit _ hcol⟩
    have hplan : nestedGroupByPlan e = .error resplitMismatchMsg := by
      simp only [nestedGroupByPlan, hany, Bool.not_true, Bool.false_eq_true, if_false, herr]
    show nestedGroupByWith (getQueryAndPostTransform env fuel) e = _
    simp only [nestedGroupByWith, hplan]
  · intro htrue
    obtain ⟨⟨outerApplies, st2⟩, hok, hg⟩ := hsp.1 htrue
    by_cases hany : (effectiveApplies e).any (fun a => a.expression.containsSplit) = true
    · cases hgs : st2.globalResplitSplit with
      | none =>
        simp only [nestedGroupByPlan, hany, Bool.not_true, Bool.false_eq_true, if_false,
          hok, hgs, exceptIsOk]
      | some g =>
        simp only [nestedGroupByPlan, hany, Bool.not_true, Bool.false_eq_true, if_false,
          hok, hgs, exceptIsOk]
    · have hanyf : (effectiveApplies e).any (fun a => a.expression.containsSplit) = false := by
        simpa using hany
      simp only [nestedGroupByPlan, hanyf, Bool.not_false, if_true, exceptIsOk]

/--
Counterexample refuting C3 as stated: the applies of `eC3` contain two
re-split aggregates over different inner splits, yet the planner throws
the custom-aggregation error, not the re-split mismatch error.
-/
theorem c3_counterexample :
    allShareSplit (appliesResplits eC3) = false ∧
    nestedGroupByIfNeeded env0 1 eC3 =
      .error "can not currently combine custom aggregation and re-split" :=
  ⟨rfl, rfl⟩

/-- Witness for C3 at `eW3`: two mismatching re-splits, no custom aggregate. -/
theorem c3_witness :
    (∀ a ∈ effectiveApplies eW3, walkAggsOk a.expression = true) ∧
    allShareSplit (appliesResplits eW3) = false ∧
    nestedGroupByIfNeeded env0 1 eW3 = .error resplitMismatchMsg :=
  ⟨by decide, rfl,
   (c3_resplit_same_split env0 1 eW3 (by decide)).1 rfl⟩


/--
**C4**: whenever the re-split rewrite returns a plan, the inner planner has
mode split, no sort, no limit and querySelection group-by-only; the outer
planner has filter TRUE, allowEternity, querySelection group-by-only and
rawAttributes equal to the intermediate-column schema; and the assembled
query nests the context-stripped inner query as its dataSource of type
query.
-/
theorem c4_plan_invariants (e : ExternalV) (p : ResplitPlan)
    (hp : nestedGroupByPlan e = .ok (some p)) :
    (p.inner.mode = .split ∧ p.inner.sort = none ∧ p.inner.limit = none ∧
      p.inner.querySelection = some .groupByOnly) ∧
    (p.outer.filter = Expr.TRUE ∧ p.outer.allowEternity = true ∧
      p.outer.querySelection = some .groupByOnly ∧
      p.outer.rawAttributes = p.outerAttributes) ∧
    (∀ (recurse : ExternalV → Except String QueryAndPostTransform)
       (qpt : QueryAndPostTransform),
      nestedGroupByWith recurse e = .ok (some qpt) →
      ∃ innerQPT outerQPT,
        recurse p.inner = .ok innerQPT ∧ recurse p.outer = .ok outerQPT ∧
        qpt.query = outerQPT.query.setDataSource (.query innerQPT.query.stripContext) ∧
        qpt.query.dataSource = .query innerQPT.query.stripContext) := by
  have hp2 := hp
  by_cases hany : ((effectiveApplies e).any fun a => a.expression.containsSplit) = true
  case neg =>
    have hanyf : ((effectiveApplies e).any fun a => a.expression.containsSplit) = false := by
      simpa using hany
    have hnone : nestedGroupByPlan e = .ok none := by
      simp only [nestedGroupByPlan, hanyf, Bool.not_false, if_true]
    rw [hnone] at hp
    exact absurd hp (by simp)
  case pos =>
    simp only [nestedGroupByPlan, hany, Bool.not_true, Bool.false_eq_true, if_false] at hp
    cases hsu : splitUpApplies 0 (effectiveApplies e) {} with
    | error m =>
      rw [hsu] at hp
      exact absurd hp (by simp)
    | ok y =>
      obtain ⟨outerApplies, st⟩ := y
      simp only [hsu] at hp
      cases hgs : st.globalResplitSplit with
      | none =>
        simp only [hgs] at hp
        exact absurd hp (by simp)
      | some g =>
        simp only [hgs] at hp
        rw [Except.ok.injEq, Option.some.injEq] at hp
        subst hp
        refine ⟨⟨rfl, rfl, rfl, rfl⟩, ⟨rfl, rfl, rfl, rfl⟩, ?_⟩
        intro recurse qpt h
        simp only [nestedGroupByWith, hp2] at h
        split at h
        · exact absurd h (by simp)
        · rename_i innerQPT heq1
          split at h
          · exact absurd h (by simp)
          · rename_i outerQPT heq2
            rw [Except.ok.injEq, Option.some.injEq] at h
            subst h
            exact ⟨innerQPT, outerQPT, heq1, heq2, rfl,
              DruidQuery.dataSource_setDataSource _ _⟩

/-- Witness for C4 at `eC4`, whose single apply is one re-split aggregate. -/
theorem c4_witness :
    ∃ p : ResplitPlan, nestedGroupByPlan eC4 = .ok (some p) ∧
      ((p.inner.mode = .split ∧ p.inner.sort = none ∧ p.inner.limit = none ∧
          p.inner.querySelection = some .groupByOnly) ∧
        (p.outer.filter = Expr.TRUE ∧ p.outer.allowEternity = true ∧
          p.outer.querySelection = some .groupByOnly ∧
          p.outer.rawAttributes = p.outerAttributes) ∧
        (∀ (recurse : ExternalV → Except String QueryAndPostTransform)
           (qpt : QueryAndPostTransform),
          nestedGroupByWith recurse eC4 = .ok (some qpt) →
          ∃ innerQPT outerQPT,
            recurse p.inner = .ok innerQPT ∧ recurse p.outer = .ok outerQPT ∧
            qpt.query = outerQPT.query.setDataSource
              (.query innerQPT.query.stripContext) ∧
            qpt.query.dataSource = .query innerQPT.query.stripContext)) :=
  ⟨_, rfl, c4_plan_invariants eC4 _ rfl⟩


/--
**C5** (corrected): when the split key lowers successfully, a key whose
type is not SET/STRING returns the having filter unchanged; for a
SET/STRING key the having filter is AND-split by `havingPushPred` and a
TRUE extract leaves it unchanged, a `match` extract becomes a
regexFiltered dimension and an `is` extract becomes a listFiltered
dimension with the literal values, with the residue as the leftover
having filter.  The matcher only accepts match and is comparisons on the
label: contrary to the claim, an in-comparison is never extracted
(`havingPushPred` is false on every in node), so the listFiltered-from-in
branch is unreachable.
-/
theorem c5_having_pushdown (env : DruidEnv) (e : ExternalV) (expression : Expr)
    (label : String) (havingFilter : Expr) (di : DimensionInflater)
    (hdi : expressionToDimensionInflater env e expression label = .ok di) :
    ((expression.typeOf != some (PlyType.SET PlyType.STRING)) = true →
      expressionToDimensionInflaterHaving env e expression label havingFilter =
        .ok { virtualColumn := di.virtualColumn, dimension := di.dimension,
              inflater := di.inflater, having := havingFilter }) ∧
    ((expression.typeOf != some (PlyType.SET PlyType.STRING)) = false →
      ((extractFromAnd (havingPushPred label) havingFilter).1.beq Expr.TRUE = true →
        expressionToDimensionInflaterHaving env e expression label havingFilter =
          .ok { virtualColumn := di.virtualColumn, dimension := di.dimension,
                inflater := di.inflater, having := havingFilter }) ∧
      (∀ a pattern,
        (extractFromAnd (havingPushPred label) havingFilter).1 = .match_ a pattern →
        (extractFromAnd (havingPushPred label) havingFilter).1.beq Expr.TRUE = false →
        expressionToDimensionInflaterHaving env e expression label havingFilter =
          .ok { virtualColumn := none,
                dimension := .regexFiltered di.dimension pattern,
                inflater := di.inflater,
                having := (extractFromAnd (havingPushPred label) havingFilter).2 }) ∧
      (∀ a ex,
        (extractFromAnd (havingPushPred label) havingFilter).1 = .is_ a ex →
        (extractFromAnd (havingPushPred label) havingFilter).1.beq Expr.TRUE = false →
        expressionToDimensionInflaterHaving env e expression label havingFilter =
          .ok { virtualColumn := none,
                dimension := .listFiltered di.dimension (litValuesOf ex.getLiteralValue),
                inflater := di.inflater,
                having := (extractFromAnd (havingPushPred label) havingFilter).2 })) ∧
    (∀ c, havingPushPred label c = true → c.opName = "match" ∨ c.opName = "is") ∧
    (∀ a b, havingPushPred label (Expr.in_ a b) = false) := by
  refine ⟨?_, ?_, ?_, ?_⟩
  · intro ht
    simp only [expressionToDimensionInflaterHaving, hdi, ht, if_true]
  · intro hf
    refine ⟨?_, ?_, ?_⟩
    · intro hbeq
      simp only [expressionToDimensionInflaterHaving, hdi, hf, Bool.false_eq_true,
        if_false, hbeq, if_true]
    · intro a pattern hm hbeq
      rw [hm] at hbeq
      simp only [expressionToDimensionInflaterHaving, hdi, hf, Bool.false_eq_true,
        if_false, hm, hbeq]
    · intro a ex hm hbeq
      rw [hm] at hbeq
      simp only [expressionToDimensionInflaterHaving, hdi, hf, Bool.false_eq_true,
        if_false, hm, hbeq]
  · intro c hc
    cases c
    case match_ a rgx =>
      cases a <;> simp [havingPushPred, Expr.opName] at hc ⊢
    case is_ a b =>
      cases a <;> simp [havingPushPred, Expr.opName] at hc ⊢
    all_goals simp [havingPushPred] at hc
  · intro a b
    rfl

/--
Counterexample refuting the in-comparison clause of C5: an in-comparison
having filter on a SET/STRING split key is not extracted — the matcher
rejects it and the dimension stays unfiltered with the having returned
unchanged.
-/
theorem c5_counterexample :
    exC5.typeOf = some (PlyType.SET PlyType.STRING) ∧
    havingPushPred "lbl" havC5 = false ∧
    ∃ di, expressionToDimensionInflater env0 eC5 exC5 "lbl" = .ok di ∧
      expressionToDimensionInflaterHaving env0 eC5 exC5 "lbl" havC5 =
        .ok { virtualColumn := di.virtualColumn, dimension := di.dimension,
              inflater := di.inflater, having := havC5 } :=
  ⟨rfl, rfl, _, rfl, rfl⟩

/-- Witness for C5 at `exC5`/`havW5`: an is-comparison is pushed down. -/
theorem c5_witness :
    ∃ di, expressionToDimensionInflater env0 eC5 exC5 "lbl" = .ok di ∧
      expressionToDimensionInflaterHaving env0 eC5 exC5 "lbl" havW5 =
        .ok { virtualColumn := none,
              dimension := .listFiltered di.dimension
                (litValuesOf (Expr.literal
                  (Lit.set PlyType.STRING [.str "a", .str "b"])).getLiteralValue),
              inflater := di.inflater,
              having := (extractFromAnd (havingPushPred "lbl") havW5).2 } :=
  ⟨_, rfl,
    ((c5_having_pushdown env0 eC5 exC5 "lbl" havW5 _ rfl).2.1 rfl).2.2
      (.ref "lbl" none)
      (.literal (.set PlyType.STRING [.str "a", .str "b"])) rfl rfl⟩


/--
**C6** (corrected): the follow-up timeBoundary query is issued exactly when
the depth is not shallow — so also at medium depth, not only at deep as
claimed — and the head attribute produced by segmentMetadata
post-processing is the time column without a range; when the follow-up is
needed and fails, the failure is swallowed and the segmentMetadata
attributes are returned unchanged.
-/
theorem c6_introspection_followup (timeAttribute : String)
    (depth : IntrospectionDepth) (segRes : List SegRes0)
    (tbRes : Except Unit TimeBoundaryRes) (attributes : List AttributeInfo)
    (hseg : segmentMetadataPostProcess timeAttribute segRes = .ok attributes) :
    (timeBoundaryFollowUpNeeded depth attributes = true ↔
      (depth ≠ .shallow ∧
        ∃ a rest, attributes = a :: rest ∧
          a.nativeType = some "__time" ∧ a.range = none)) ∧
    (timeBoundaryFollowUpNeeded depth attributes = false →
      introspectAttributesWithSegmentMetadata timeAttribute depth segRes tbRes =
        .ok attributes) ∧
    (timeBoundaryFollowUpNeeded depth attributes = true →
      (∀ r, tbRes = .ok r →
        introspectAttributesWithSegmentMetadata timeAttribute depth segRes tbRes =
          .ok (setHeadRange attributes r)) ∧
      (∀ u, tbRes = .error u →
        introspectAttributesWithSegmentMetadata timeAttribute depth segRes tbRes =
          .ok attributes)) := by
  refine ⟨?_, ?_, ?_⟩
  · unfold timeBoundaryFollowUpNeeded
    constructor
    · intro h
      rw [Bool.and_eq_true] at h
      obtain ⟨h1, h2⟩ := h
      refine ⟨by simpa [bne_iff_ne] using h1, ?_⟩
      cases attributes with
      | nil => simp at h2
      | cons a rest =>
        simp at h2
        exact ⟨a, rest, rfl, h2.1, h2.2⟩
    · rintro ⟨h1, a, rest, hattr, hnt, hr⟩
      subst hattr
      simp [h1, hnt, hr, bne_iff_ne]
  · intro hno
    simp only [introspectAttributesWithSegmentMetadata, hseg, hno,
      Bool.false_eq_true, if_false]
  · intro hyes
    constructor
    · intro r hr
      simp only [introspectAttributesWithSegmentMetadata, hseg, hyes, if_true, hr]
    · intro u hr
      simp only [introspectAttributesWithSegmentMetadata, hseg, hyes, if_true, hr]

/--
Counterexample refuting the depth clause of C6: at medium depth — which is
not deep — the rangeless time column still triggers the follow-up query.
-/
theorem c6_counterexample :
    IntrospectionDepth.medium ≠ IntrospectionDepth.deep ∧
    ∃ attributes, segmentMetadataPostProcess "time" segC6 = .ok attributes ∧
      timeBoundaryFollowUpNeeded .medium attributes = true ∧
      introspectAttributesWithSegmentMetadata "time" .medium segC6
        (.ok ⟨"2020", "2021"⟩) =
        .ok (setHeadRange attributes ⟨"2020", "2021"⟩) :=
  ⟨by decide, _, rfl, rfl, rfl⟩

/-- Witness for C6 at deep depth with a failing follow-up (swallowed). -/
theorem c6_witness :
    ∃ attributes, segmentMetadataPostProcess "time" segC6 = .ok attributes ∧
      timeBoundaryFollowUpNeeded .deep attributes = true ∧
      introspectAttributesWithSegmentMetadata "time" .deep segC6 (.error ()) =
        .ok attributes :=
  ⟨_, rfl, rfl,
    ((c6_introspection_followup "time" .deep segC6 (.error ()) _ rfl).2.2 rfl).2 () rfl⟩


/--
**C7** (corrected): the un-splitable check fires only on the simple path —
a split key whose sole free reference names an unsplitable attribute, and
which contains no then and is not a complex fallback, fails with the
fixed message containing "references an un-splitable metric".  Contrary to
the universal claim, a key with several free references takes the
expression path and never performs the check (`c7_counterexample`).
-/
theorem c7_unsplitable (env : DruidEnv) (e : ExternalV) (expression : Expr)
    (label : String) (name : String) (attr : AttributeInfo)
    (hrefs : expression.freeRefs = [name])
    (hpath : expression.containsThen = false ∧ isComplexFallback expression = false)
    (hattr : e.getAttributesInfo name = some attr)
    (hun : attr.unsplitable = true) :
    expressionToDimensionInflater env e expression label =
      .error ("can not convert expression to split because it references an un-splitable metric "
        ++ name ++ " which is most likely rolled up.") ∧
    ∃ pre post,
      ("can not convert expression to split because it references an un-splitable metric "
        ++ name ++ " which is most likely rolled up.") =
      pre ++ "references an un-splitable metric" ++ post := by
  constructor
  · simp [expressionToDimensionInflater, hrefs, hpath.1, hpath.2, hattr, hun]
  · refine ⟨"can not convert expression to split because it ",
      " " ++ name ++ " which is most likely rolled up.", ?_⟩
    have hlit : "can not convert expression to split because it references an un-splitable metric " =
        "can not convert expression to split because it references an un-splitable metric" ++ " " := rfl
    conv_lhs => rw [hlit]
    rw [String.append_assoc, String.append_assoc, String.append_assoc " " name]
    rfl

/--
Counterexample refuting C7 as stated: a split key with two free references,
one of them the unsplitable metric, takes the expression path and succeeds
instead of failing.
-/
theorem c7_counterexample :
    "m" ∈ exC7.freeRefs ∧
    (∃ attr, eC7.getAttributesInfo "m" = some attr ∧ attr.unsplitable = true) ∧
    exceptIsOk (expressionToDimensionInflater env0 eC7 exC7 "lbl") = true :=
  ⟨by decide, ⟨_, rfl, rfl⟩, rfl⟩

/-- Witness for C7 at the bare unsplitable reference `exW7`. -/
theorem c7_witness :
    exW7.freeRefs = ["m"] ∧
    expressionToDimensionInflater env0 eC7 exW7 "lbl" =
      .error ("can not convert expression to split because it references an un-splitable metric "
        ++ "m" ++ " which is most likely rolled up.") :=
  ⟨rfl, (c7_unsplitable env0 eC7 exW7 "lbl" "m" _ rfl ⟨rfl, rfl⟩ rfl rfl).1⟩


/--
**C9**: in split mode the SQL backend emits, in order, an optional leading
WITH clause (present exactly when withQuery is set), SELECT with the split
and apply select list, FROM with WHERE appended exactly when the query
filter is not TRUE, GROUP BY, HAVING exactly when the having filter is not
TRUE, then the sort clause when a sort is set and the limit clause when a
limit is set; the query string is these clauses joined by newlines.
-/
theorem c9_sql_split_clauses (senv : SqlEnv) (e : ExternalV) (split : SplitPairs)
    (hm : e.mode = .split) (hsplit : e.getQuerySplit = some split) :
    sqlQueryParts senv e = .ok (
      (match e.withQuery with
       | some w => ["WITH __with__ AS (" ++ w ++ ")"]
       | none => []) ++
      ["SELECT",
       String.intercalate ",\n"
         (senv.splitSelectSQL split ++ (e.applies.getD []).map senv.applySQL),
       (if !(e.getQueryFilter.beq Expr.TRUE) then
          sqlGetFrom senv e ++ "\nWHERE " ++ senv.exprSQL e.getQueryFilter
        else sqlGetFrom senv e),
       "GROUP BY " ++ String.intercalate ","
         (if sqlCapability "shortcut-group-by" then senv.splitShortGroupBySQL split
          else senv.splitGroupBySQL split)] ++
      (if !(e.havingFilter.beq Expr.TRUE) then
         ["HAVING " ++ senv.exprSQL e.havingFilter]
       else []) ++
      (match e.sort with | some s => [senv.sortSQL s] | none => []) ++
      (match e.limit with | some l => [senv.limitSQL l] | none => [])) ∧
    (∀ ps, sqlQueryParts senv e = .ok ps →
      sqlQuery senv e = .ok (String.intercalate "\n" ps)) := by
  constructor
  · simp only [sqlQueryParts, hm, hsplit]
    simp [List.append_assoc]
  · intro ps h
    simp [sqlQuery, h, Except.map]

/-- Witness for C9 at the fully-populated split external `eW9`. -/
theorem c9_witness :
    eW9.mode = .split ∧
    ∃ split, eW9.getQuerySplit = some split ∧
      sqlQueryParts senv0 eW9 = .ok (
        (match eW9.withQuery with
         | some w => ["WITH __with__ AS (" ++ w ++ ")"]
         | none => []) ++
        ["SELECT",
         String.intercalate ",\n"
           (senv0.splitSelectSQL split ++ (eW9.applies.getD []).map senv0.applySQL),
         (if !(eW9.getQueryFilter.beq Expr.TRUE) then
            sqlGetFrom senv0 eW9 ++ "\nWHERE " ++ senv0.exprSQL eW9.getQueryFilter
          else sqlGetFrom senv0 eW9),
         "GROUP BY " ++ String.intercalate ","
           (if sqlCapability "shortcut-group-by" then senv0.splitShortGroupBySQL split
            else senv0.splitGroupBySQL split)] ++
        (if !(eW9.havingFilter.beq Expr.TRUE) then
           ["HAVING " ++ senv0.exprSQL eW9.havingFilter]
         else []) ++
        (match eW9.sort with | some s => [senv0.sortSQL s] | none => []) ++
        (match eW9.limit with | some l => [senv0.limitSQL l] | none => [])) :=
  ⟨rfl, _, rfl, (c9_sql_split_clauses senv0 eW9 _ rfl rfl).1⟩

end Plywood
